import Mathlib

/-!
# kirimkan: the message gateway of `main.go`

A shallow embedding of `src/main.go` (the store connection `KoneksiDB`, the
destination registry `SimpanNomor`, the session start-up `KoneksiWA` and the
HTTP handler `KirimPesan`) with the properties stated about them.

Conventions of the embedding

* The program's package-level variables (`db_save_number`, `dsn`, `db`, `wac`)
  are fields of `World`; a Go function that reads or writes them is a function
  `World → World`.  `World` also carries what the program can observe of its
  collaborators: the rows of the `whatsapp` table, the handles that were closed,
  and the `trace` of every call made to a collaborator, in program order.
* The outcome of a call that the program does not decide (does the ping
  succeed, does `SendMessage` fail, which events does the QR channel deliver) is
  an argument: `DBOutcomes`, `Env`, `WAOutcomes`.  Theorems quantify over them.
* A Go `error` is the string `err.Error()`; `Option String` is an `error`
  result with `none` for `nil`.
* A run-time panic (method call through a nil `*sql.DB`) is an explicit result:
  `Outcome.panicked`, and `Served.aborted` for the handler, whose connection
  `net/http` then closes without a response.
* The store is the MySQL table that `main` creates, `whatsapp (id, nomor
  VARCHAR(16) UNIQUE NOT NULL)`: its rows, its SQL mode and its collation are
  fields of `World`, and the column width and the `UNIQUE` index are enforced
  by `execInsert`.
* The JSON decoder and `http.Error` are library code; `json.Decode` and
  `httpError` follow what the library does.
* The mutex `mu` is not modelled: the embedding is sequential.
-/

namespace Kirimkan

/-- The struct the request body is decoded into (`BodyKirimPesan`, with the
keys `no` and `pesan`). -/
structure BodyKirimPesan where
  No : String
  Pesan : String
deriving DecidableEq, Repr

/-! ## `encoding/json`: what `json.NewDecoder(r.Body).Decode(&request)` does

The decoder is library code.  `json.Decode` below follows the behaviour of Go's
`Decoder.Decode` on a target of type `BodyKirimPesan`: it reads the FIRST JSON
value of the stream (RFC 8259 grammar, nesting at most 10000 deep), leaves what
follows it unread, and stores the value into the struct.  The body is taken as a
sequence of Unicode characters, that is as valid UTF-8 text. -/

namespace json

/-- The four white-space characters of JSON. -/
def isSpace (c : Char) : Bool :=
  c == ' ' || c == '\t' || c == '\r' || c == '\n'

/-- Drop leading white space. -/
def skipSpace : List Char → List Char
  | [] => []
  | c :: cs => if isSpace c then skipSpace cs else c :: cs

/-- Value of one hexadecimal digit. -/
def hexVal (c : Char) : Option Nat :=
  if '0' ≤ c ∧ c ≤ '9' then some (c.toNat - 48)
  else if 'a' ≤ c ∧ c ≤ 'f' then some (c.toNat - 87)
  else if 'A' ≤ c ∧ c ≤ 'F' then some (c.toNat - 55)
  else none

/-- The code unit written by the four hexadecimal digits of a `\u` escape. -/
def getu4 (a b c d : Char) : Option Nat :=
  match hexVal a, hexVal b, hexVal c, hexVal d with
  | some x, some y, some z, some w => some (((x * 16 + y) * 16 + z) * 16 + w)
  | _, _, _, _ => none

/-- The character a one-letter escape stands for. -/
def unescape (c : Char) : Option Char :=
  if c == '"' then some '"'
  else if c == '\\' then some '\\'
  else if c == '/' then some '/'
  else if c == 'b' then some (Char.ofNat 8)
  else if c == 'f' then some (Char.ofNat 12)
  else if c == 'n' then some '\n'
  else if c == 'r' then some '\r'
  else if c == 't' then some '\t'
  else none

/-- A high surrogate that found no low surrogate becomes U+FFFD.  The
accumulator `acc` holds the decoded characters in reverse. -/
def flushSurrogate (hi : Option Nat) (acc : List Char) : List Char :=
  match hi with
  | none => acc
  | some _ => Char.ofNat 0xFFFD :: acc

/-- Read a string literal whose opening quote has been consumed: the decoded
string and the input after the closing quote.  `hi` is a pending high surrogate
from a `\u` escape.  Control characters and unknown escapes are errors. -/
def scanString (hi : Option Nat) (acc : List Char) :
    List Char → Option (String × List Char)
  | [] => none
  | c :: rest =>
    if c == '"' then some (String.mk (flushSurrogate hi acc).reverse, rest)
    else if c == '\\' then
      match rest with
      | [] => none
      | e :: rest1 =>
        if e == 'u' then
          match rest1 with
          | a :: b :: c1 :: d :: rest2 =>
            match getu4 a b c1 d with
            | none => none
            | some v =>
              if 0xD800 ≤ v ∧ v < 0xDC00 then
                scanString (some v) (flushSurrogate hi acc) rest2
              else if 0xDC00 ≤ v ∧ v < 0xE000 then
                match hi with
                | some h =>
                  scanString none
                    (Char.ofNat (0x10000 + (h - 0xD800) * 0x400 + (v - 0xDC00)) :: acc) rest2
                | none => scanString none (Char.ofNat 0xFFFD :: acc) rest2
              else scanString none (Char.ofNat v :: flushSurrogate hi acc) rest2
          | _ => none
        else
          match unescape e with
          | some ch => scanString none (ch :: flushSurrogate hi acc) rest1
          | none => none
    else if c.toNat < 0x20 then none
    else scanString none (c :: flushSurrogate hi acc) rest

/-- Drop leading decimal digits. -/
def skipDigits : List Char → List Char
  | [] => []
  | c :: cs => if c.isDigit then skipDigits cs else c :: cs

/-- Optional exponent part of a number. -/
def scanExponent (cs : List Char) : Option (List Char) :=
  match cs with
  | [] => some []
  | e :: r =>
    if e == 'e' || e == 'E' then
      let r1 :=
        match r with
        | [] => r
        | s :: r2 => if s == '+' || s == '-' then r2 else r
      match r1 with
      | [] => none
      | d :: r3 => if d.isDigit then some (skipDigits r3) else none
    else some cs

/-- Optional fraction part of a number, then the exponent. -/
def scanFraction (cs : List Char) : Option (List Char) :=
  match cs with
  | [] => some []
  | c :: r =>
    if c == '.' then
      match r with
      | [] => none
      | d :: r2 => if d.isDigit then scanExponent (skipDigits r2) else none
    else scanExponent cs

/-- Read a number: the input after its last character. -/
def scanNumber (cs : List Char) : Option (List Char) :=
  let cs1 :=
    match cs with
    | [] => cs
    | c :: r => if c == '-' then r else cs
  match cs1 with
  | [] => none
  | d :: r =>
    if d == '0' then scanFraction r
    else if '1' ≤ d ∧ d ≤ '9' then scanFraction (skipDigits r)
    else none

/-- Nesting limit of the library's scanner. -/
def maxNestingDepth : Nat := 10000

mutual

/-- Check one JSON value at the head of the input (no leading white space) and
return the input after it.  `depth` counts the enclosing arrays and objects.
The first argument bounds the recursion: it drops by one at each call, and
twice the length of the input plus two is always enough. -/
def skipValue : Nat → Nat → List Char → Option (List Char)
  | 0, _, _ => none
  | fuel + 1, depth, cs =>
    match cs with
    | [] => none
    | c :: rest =>
      if c == '\x7b' then
        if depth ≥ maxNestingDepth then none
        else
          match skipSpace rest with
          | [] => none
          | c1 :: rest1 =>
            if c1 == '\x7d' then some rest1
            else skipMembers fuel (depth + 1) (c1 :: rest1)
      else if c == '[' then
        if depth ≥ maxNestingDepth then none
        else
          match skipSpace rest with
          | [] => none
          | c1 :: rest1 =>
            if c1 == ']' then some rest1
            else skipElements fuel (depth + 1) (c1 :: rest1)
      else if c == '"' then (scanString none [] rest).map Prod.snd
      else if c == 't' then
        match rest with
        | 'r' :: 'u' :: 'e' :: r => some r
        | _ => none
      else if c == 'f' then
        match rest with
        | 'a' :: 'l' :: 's' :: 'e' :: r => some r
        | _ => none
      else if c == 'n' then
        match rest with
        | 'u' :: 'l' :: 'l' :: r => some r
        | _ => none
      else scanNumber cs

/-- Check the members of an object from its first key to the closing brace. -/
def skipMembers : Nat → Nat → List Char → Option (List Char)
  | 0, _, _ => none
  | fuel + 1, depth, cs =>
    match cs with
    | [] => none
    | c :: rest =>
      if c == '"' then
        match scanString none [] rest with
        | none => none
        | some (_, r) =>
          match skipSpace r with
          | [] => none
          | c2 :: r2 =>
            if c2 == ':' then
              match skipValue fuel depth (skipSpace r2) with
              | none => none
              | some r3 =>
                match skipSpace r3 with
                | [] => none
                | c4 :: r4 =>
                  if c4 == ',' then skipMembers fuel depth (skipSpace r4)
                  else if c4 == '\x7d' then some r4
                  else none
            else none
      else none

/-- Check the elements of an array from its first element to the closing
bracket. -/
def skipElements : Nat → Nat → List Char → Option (List Char)
  | 0, _, _ => none
  | fuel + 1, depth, cs =>
    match skipValue fuel depth cs with
    | none => none
    | some r =>
      match skipSpace r with
      | [] => none
      | c :: r1 =>
        if c == ',' then skipElements fuel depth (skipSpace r1)
        else if c == ']' then some r1
        else none

end

/-- What the struct decoder sees of the value of an object member: `null`, a
string, or a value of another JSON type (named as the library names it). -/
inductive Member where
  | null
  | str (s : String)
  | other (kind : String)
deriving DecidableEq, Repr

/-- The first JSON value of a request body, as far as decoding it into
`BodyKirimPesan` looks at it. -/
inductive Top where
  | null
  | object (members : List (String × Member))
  | other (kind : String)
deriving DecidableEq, Repr

/-- The library's name for the JSON type of a value that starts with `c`. -/
def kindOf (c : Char) : String :=
  if c == '\x7b' then "object"
  else if c == '[' then "array"
  else if c == '"' then "string"
  else if c == 't' || c == 'f' then "bool"
  else "number"

/-- Read the value of a member of the top-level object. -/
def readMember (fuel : Nat) (cs : List Char) : Option (Member × List Char) :=
  match cs with
  | [] => none
  | c :: rest =>
    if c == '"' then (scanString none [] rest).map (fun p => (Member.str p.1, p.2))
    else if c == 'n' then
      match rest with
      | 'u' :: 'l' :: 'l' :: r => some (Member.null, r)
      | _ => none
    else (skipValue fuel 1 cs).map (fun r => (Member.other (kindOf c), r))

/-- Read the members of the top-level object, from its first key to the closing
brace, in the order written. -/
def readMembers : Nat → List Char → Option (List (String × Member) × List Char)
  | 0, _ => none
  | fuel + 1, cs =>
    match cs with
    | [] => none
    | c :: rest =>
      if c == '"' then
        match scanString none [] rest with
        | none => none
        | some (key, r) =>
          match skipSpace r with
          | [] => none
          | c2 :: r2 =>
            if c2 == ':' then
              match readMember fuel (skipSpace r2) with
              | none => none
              | some (v, r3) =>
                match skipSpace r3 with
                | [] => none
                | c4 :: r4 =>
                  if c4 == ',' then
                    match readMembers fuel (skipSpace r4) with
                    | none => none
                    | some (ms, r5) => some ((key, v) :: ms, r5)
                  else if c4 == '\x7d' then some ([(key, v)], r4)
                  else none
            else none
      else none

/-- The first JSON value of the input and the input left unread after it;
`none` when the input is empty or does not start with a complete, well-formed
value.  What follows the value is not looked at.  `fuel` bounds the recursion
of the scanners. -/
def readValueFuel (fuel : Nat) (cs : List Char) : Option (Top × List Char) :=
  match skipSpace cs with
  | [] => none
  | c :: rest =>
    if c == '\x7b' then
      match skipSpace rest with
      | [] => none
      | c1 :: rest1 =>
        if c1 == '\x7d' then some (Top.object [], rest1)
        else (readMembers fuel (c1 :: rest1)).map (fun p => (Top.object p.1, p.2))
    else if c == 'n' then
      match rest with
      | 'u' :: 'l' :: 'l' :: r => some (Top.null, r)
      | _ => none
    else (skipValue fuel 0 (c :: rest)).map (fun r => (Top.other (kindOf c), r))

/-- The library's `readValue`: the first JSON value of the stream and the input
left unread after it, with a bound on the recursion that is never reached. -/
def readValue (cs : List Char) : Option (Top × List Char) :=
  readValueFuel (2 * cs.length + 2) cs

/-- The library folds a key before it compares it with a field name: ASCII
letters to upper case, any other character to the least character of its
simple case-folding orbit.  The only characters outside ASCII whose orbit holds
an ASCII letter are U+017F (with `S`) and U+212A (with `K`); the image of every
other character is left as it is here, which no comparison with `NO` or
`PESAN` can tell apart. -/
def foldChar (c : Char) : Char :=
  if 'a' ≤ c ∧ c ≤ 'z' then Char.ofNat (c.toNat - 32)
  else if c.toNat = 0x17F then 'S'
  else if c.toNat = 0x212A then 'K'
  else c

/-- The folded form of a key. -/
def foldName (key : String) : List Char :=
  key.toList.map foldChar

/-- Store one member of the top-level object into the struct.  A key that
matches no field is skipped; `null` leaves the field as it is; a value of
another type than string is a type error, of which the first is kept while
decoding goes on. -/
def storeMember (st : BodyKirimPesan × Option String) (m : String × Member) :
    BodyKirimPesan × Option String :=
  let k := foldName m.1
  if k = ['N', 'O'] then
    match m.2 with
    | Member.null => st
    | Member.str s => ({ st.1 with No := s }, st.2)
    | Member.other kind =>
      (st.1, st.2.orElse (fun _ => some
        ("json: cannot unmarshal " ++ kind ++
          " into Go struct field BodyKirimPesan.no of type string")))
  else if k = ['P', 'E', 'S', 'A', 'N'] then
    match m.2 with
    | Member.null => st
    | Member.str s => ({ st.1 with Pesan := s }, st.2)
    | Member.other kind =>
      (st.1, st.2.orElse (fun _ => some
        ("json: cannot unmarshal " ++ kind ++
          " into Go struct field BodyKirimPesan.pesan of type string")))
  else st

/-- Store the first value of the body into `request`, which the handler
declares with `var` and so starts with both fields empty.  `null` stores
nothing; a value that is neither `null` nor an object is a type error. -/
def unmarshal (v : Top) : Except String BodyKirimPesan :=
  match v with
  | Top.null => Except.ok ⟨"", ""⟩
  | Top.other kind =>
    Except.error
      ("json: cannot unmarshal " ++ kind ++ " into Go value of type main.BodyKirimPesan")
  | Top.object members =>
    match members.foldl storeMember (⟨"", ""⟩, none) with
    | (request, none) => Except.ok request
    | (_, some err) => Except.error err

/-- The call `json.NewDecoder(r.Body).Decode(&request)` on a fresh decoder: the
decoded request, or the error.  Only the first JSON value of the body is read
and checked.  The text of a scanning error is not modelled. -/
def Decode (body : String) : Except String BodyKirimPesan :=
  match readValue body.toList with
  | none => Except.error "invalid or incomplete JSON value"
  | some (v, _) => unmarshal v

end json

/-! ## Data model -/

/-- A `*sql.DB` handle, known by its identity. -/
structure DBHandle where
  id : Nat
deriving DecidableEq, Repr

/-- A `*whatsmeow.Client`, known by its identity. -/
structure Client where
  id : Nat
deriving DecidableEq, Repr

/-- The type `types.JID`, as far as the handler fills it. -/
structure JID where
  User : String
  Server : String
deriving DecidableEq, Repr

/-- The constant `types.DefaultUserServer`. -/
def DefaultUserServer : String := "s.whatsapp.net"

/-- A row of the table created by
`CREATE TABLE IF NOT EXISTS whatsapp (id INT PRIMARY KEY AUTO_INCREMENT,
nomor VARCHAR(16) UNIQUE NOT NULL)`. -/
structure Row where
  id : Nat
  nomor : String
deriving DecidableEq, Repr

/-- A call the program makes to a collaborator, or a line it logs. -/
inductive Event where
  | log (msg : String)
  | readBody
  | sendMessage (c : Client) (dest : JID) (text : String)
  | dbPing (h : DBHandle)
  | dbClose (h : DBHandle)
  | sqlOpen (dsn : String)
  | queryRow (h : DBHandle) (nomor : String)
  | exec (h : DBHandle) (nomor : String)
  | getQRChannel
  | connect
  | renderQR (code : String)
deriving DecidableEq, Repr

/-- The program's shared variables and the state of its collaborators. -/
structure World where
  /-- Global `db_save_number`. -/
  db_save_number : String
  /-- Global `dsn`. -/
  dsn : String
  /-- Global `db`; `none` is the nil pointer. -/
  db : Option DBHandle
  /-- Global `wac`; `none` is the nil pointer. -/
  wac : Option Client
  /-- The rows of table `whatsapp` in the store. -/
  rows : List Row
  /-- The next value of the `AUTO_INCREMENT` key. -/
  nextId : Nat
  /-- Whether the store runs in strict SQL mode. -/
  strict : Bool
  /-- Equality of two values of column `nomor` under the collation of the table:
  what `WHERE nomor = ?` and the `UNIQUE` index compare with. -/
  collation : String → String → Bool
  /-- The identity the next `sql.Open` gives its handle. -/
  nextHandle : Nat
  /-- The handles on which `Close` was called, latest first. -/
  closed : List DBHandle
  /-- The calls made so far, in program order. -/
  trace : List Event

/-- Append one event to the trace. -/
def World.emit (w : World) (e : Event) : World :=
  { w with trace := w.trace ++ [e] }

/-- The effect of `log.Printf`. -/
def World.log (w : World) (msg : String) : World :=
  w.emit (Event.log msg)

/-- The outcomes, during one call of `KoneksiDB` or `SimpanNomor`, of the store
calls the program does not decide.  `none` is a nil error. -/
structure DBOutcomes where
  /-- Result of `db.Ping()` on the handle that existed at entry. -/
  pingOld : Option String
  /-- Error of `sql.Open("mysql", dsn)`. -/
  openErr : Option String
  /-- Result of `db.Ping()` on the freshly opened handle. -/
  pingNew : Option String
  /-- A failure of the `SELECT` other than "no rows" (connection lost, ...). -/
  queryErr : Option String
  /-- A failure of the `INSERT` for any reason other than the width of the
  column and the `UNIQUE` index, which `execInsert` decides: the connection is
  lost, the table is missing, the value has a character that the character
  set of the column cannot hold, ... -/
  execErr : Option String
deriving DecidableEq, Repr

/-! ## Store Connection Manager: `KoneksiDB` -/

/-- The call `db.Close()`. -/
def World.dbClose (w : World) (h : DBHandle) : World :=
  { w with closed := h :: w.closed, trace := w.trace ++ [Event.dbClose h] }

/-- Lines 60-77 of `KoneksiDB`: open a new handle and probe it. -/
def KoneksiDB.buatBaru (o : DBOutcomes) (w : World) : World :=
  let w1 := w.emit (Event.sqlOpen w.dsn)
  match o.openErr with
  | some err =>
    -- `db, err = sql.Open(...)` has stored the nil handle
    ({ w1 with db := none }).log ("Gagal membuat koneksi ke Database : " ++ err)
  | none =>
    let h : DBHandle := ⟨w1.nextHandle⟩
    let w2 := ({ w1 with db := some h, nextHandle := w1.nextHandle + 1 }).emit (Event.dbPing h)
    match o.pingNew with
    | some err =>
      let w3 := (w2.log ("Gagal terhubung ke Database : " ++ err)).dbClose h
      { w3 with db := none }
    | none => w2.log "Terhubung ke Database"

/-- The function `KoneksiDB`. -/
def KoneksiDB (o : DBOutcomes) (w : World) : World :=
  match w.db with
  | some h =>
    let w1 := w.emit (Event.dbPing h)
    match o.pingOld with
    | none => w1
    | some _ => KoneksiDB.buatBaru o (w1.dbClose h)
  | none => KoneksiDB.buatBaru o w

/-! ## Destination Registry: `SimpanNomor` -/

/-- How a call that may panic ends. -/
inductive Outcome where
  | returned (w : World)
  | panicked (w : World) (reason : String)

/-- Width of column `nomor`: `VARCHAR(16)`. -/
def nomorWidth : Nat := 16

/-- The value MySQL stores in a `VARCHAR(16)` column for `nomor`: the value
itself when it fits; otherwise its first 16 characters when the mode is not
strict or when only spaces are cut off; otherwise nothing (error 1406). -/
def fitColumn (strict : Bool) (nomor : String) : Option String :=
  if nomor.length ≤ nomorWidth then some nomor
  else if !strict || (nomor.toList.drop nomorWidth).all (fun c => c == ' ') then
    some (String.mk (nomor.toList.take nomorWidth))
  else none

/-- Result of `QueryRow(...).Scan(new(int))`. -/
inductive ScanResult where
  | found
  | errNoRows
  | failed (err : String)
deriving DecidableEq, Repr

/-- The row lookup `SELECT id FROM whatsapp WHERE nomor = ?` followed by
`Scan`: a row is found when the table has one whose `nomor` equals the
argument under the collation. -/
def queryRow (o : DBOutcomes) (w : World) (nomor : String) : ScanResult :=
  match o.queryErr with
  | some err => ScanResult.failed err
  | none =>
    if w.rows.any (fun r => w.collation r.nomor nomor) then ScanResult.found
    else ScanResult.errNoRows

/-- The statement `INSERT INTO whatsapp (nomor) VALUES (?)`: the new table, or
the error.  The column width and the `UNIQUE` constraint are enforced: a value
that does not fit is refused or cut (`fitColumn`), and a value equal under the
collation to the `nomor` of a row is refused (error 1062). -/
def execInsert (o : DBOutcomes) (w : World) (nomor : String) : Except String World :=
  match o.execErr with
  | some err => Except.error err
  | none =>
    match fitColumn w.strict nomor with
    | none => Except.error "Error 1406 (22001): Data too long for column 'nomor' at row 1"
    | some v =>
      if w.rows.any (fun r => w.collation r.nomor v) then
        Except.error ("Error 1062 (23000): Duplicate entry '" ++ v ++ "' for key 'nomor'")
      else Except.ok { w with rows := w.rows ++ [⟨w.nextId, v⟩], nextId := w.nextId + 1 }

/-- The function `SimpanNomor`.  After `KoneksiDB` the global `db` is used
without a nil check: when it is nil, `db.QueryRow` dereferences a nil `*sql.DB`
and the goroutine panics. -/
def SimpanNomor (o : DBOutcomes) (nomor : String) (w : World) : Outcome :=
  let w1 := KoneksiDB o w
  match w1.db with
  | none => Outcome.panicked w1 "runtime error: invalid memory address or nil pointer dereference"
  | some h =>
    let w2 := w1.emit (Event.queryRow h nomor)
    match queryRow o w2 nomor with
    | ScanResult.errNoRows =>
      let w3 := w2.emit (Event.exec h nomor)
      let w4 :=
        match execInsert o w3 nomor with
        | Except.error err => w3.log ("Gagal menyimpan nomor : " ++ err)
        | Except.ok w' => w'
      Outcome.returned (w4.log ("Nomor +" ++ nomor ++ " berhasil disimpan"))
    | ScanResult.failed err => Outcome.returned (w2.log ("Gagal memeriksa nomor : " ++ err))
    | ScanResult.found => Outcome.returned w2

/-- `SimpanNomor` called once for each element of `os`, in order, with the same
identifier; a panic ends the sequence. -/
def SimpanNomorN (os : List DBOutcomes) (nomor : String) (w : World) : Outcome :=
  match os with
  | [] => Outcome.returned w
  | o :: rest =>
    match SimpanNomor o nomor w with
    | Outcome.returned w1 => SimpanNomorN rest nomor w1
    | Outcome.panicked w1 reason => Outcome.panicked w1 reason

/-! ## Session Manager: `KoneksiWA` and its call in `main` -/

/-- An item of the QR channel (`whatsmeow.QRChannelItem`): `Event` is `"code"`
for a new pairing code, and otherwise names the event that ends pairing:
`"success"`, `"timeout"`, or an error event. -/
structure QRChannelItem where
  Event : String
  Code : String
deriving DecidableEq, Repr

/-- The outcomes of the calls `KoneksiWA` makes.  `none` is a nil error. -/
structure WAOutcomes where
  /-- Error of `sqlstore.New`. -/
  sqlstoreNew : Option String
  /-- Error of `container.GetFirstDevice`. -/
  getFirstDevice : Option String
  /-- The client `whatsmeow.NewClient` builds. -/
  client : Client
  /-- The stored device identity `client.Store.ID`; `none` when never paired. -/
  storeID : Option String
  /-- Result of `client.GetQRChannel`: the error, or the items the channel
  delivers until it is closed. -/
  getQRChannel : Except String (List QRChannelItem)
  /-- Error of `client.Connect`. -/
  connect : Option String
deriving Repr

/-- The body of the loop `for evt := range qrChan`. -/
def KoneksiWA.tampilkan (w : World) (evt : QRChannelItem) : World :=
  if evt.Event = "code" then
    (w.log "Silahkan scan QR code berikut agar terhubung ke Whatsapp").emit
      (Event.renderQR evt.Code)
  else w.log ("Event Login : " ++ evt.Event)

/-- The function `KoneksiWA`: the client and a nil error, or a nil client and
the error. -/
def KoneksiWA (o : WAOutcomes) (w : World) : World × Except String Client :=
  match o.sqlstoreNew with
  | some err => (w, Except.error ("gagal menginisialisasi database: " ++ err))
  | none =>
    match o.getFirstDevice with
    | some err => (w, Except.error ("gagal mendapatkan device store: " ++ err))
    | none =>
      match o.storeID with
      | none =>
        let w1 := w.emit Event.getQRChannel
        match o.getQRChannel with
        | Except.error err => (w1, Except.error ("gagal mendapatkan QR channel: " ++ err))
        | Except.ok items =>
          let w2 := w1.emit Event.connect
          match o.connect with
          | some err => (w2, Except.error ("gagal menghubungkan ke WhatsApp: " ++ err))
          | none => (items.foldl KoneksiWA.tampilkan w2, Except.ok o.client)
      | some _ =>
        let w1 := w.emit Event.connect
        match o.connect with
        | some err => (w1, Except.error ("gagal menghubungkan ke WhatsApp: " ++ err))
        | none => (w1, Except.ok o.client)

/-- Lines 301-309 of `main`: publish the session in `wac`.  The flag tells
whether `main` goes on to register the routes and serve. -/
def main.hubungkanWA (o : WAOutcomes) (w : World) : World × Bool :=
  match KoneksiWA o w with
  | (w1, Except.error err) =>
    (({ w1 with wac := none }).log ("Gagal Terhubung ke WhatsApp : " ++ err), false)
  | (w1, Except.ok c) => (({ w1 with wac := some c }).log "Terhubung ke WhatsApp", true)

/-- The last item a closed QR channel delivered. -/
def terminalEvent (items : List QRChannelItem) : Option String :=
  items.getLast?.map (fun i => i.Event)

/-! ## Message Dispatcher: `KirimPesan` -/

/-- The request, as far as the handler reads it. -/
structure Request where
  Method : String
  Body : String
deriving DecidableEq, Repr

/-- The constant `http.MethodPost`. -/
def MethodPost : String := "POST"

/-- The constant `http.StatusOK`. -/
def StatusOK : Nat := 200
/-- The constant `http.StatusBadRequest`. -/
def StatusBadRequest : Nat := 400
/-- The constant `http.StatusMethodNotAllowed`. -/
def StatusMethodNotAllowed : Nat := 405
/-- The constant `http.StatusInternalServerError`. -/
def StatusInternalServerError : Nat := 500

/-- What is written to the response body: the encoding by
`json.NewEncoder(w).Encode` of a map with string values, which is a JSON object
with these members, or plain text. -/
inductive Body where
  | json (members : List (String × String))
  | text (s : String)
deriving DecidableEq, Repr

/-- The response written to the `http.ResponseWriter`. -/
structure Response where
  code : Nat
  header : List (String × String)
  body : Body
deriving DecidableEq, Repr

/-- What the client gets: a response, or none because the handler panicked
before it wrote anything and `net/http` closed the connection. -/
inductive Served where
  | response (r : Response)
  | aborted (reason : String)
deriving DecidableEq, Repr

/-- The statements common to every JSON reply of the handler: set
`Content-Type: application/json`, write the status code, encode the map
`{"status": status, "message": message}`. -/
def balasanJSON (code : Nat) (status message : String) : Response :=
  { code := code
    header := [("Content-Type", "application/json")]
    body := Body.json [("status", status), ("message", message)] }

/-- The library call `http.Error(w, error, code)`: a plain-text reply whose
body is the error text and a newline. -/
def httpError (error : String) (code : Nat) : Response :=
  { code := code
    header := [("Content-Type", "text/plain; charset=utf-8"),
               ("X-Content-Type-Options", "nosniff")]
    body := Body.text (error ++ "\n") }

/-- What the handler does not decide during one request. -/
structure Env where
  /-- The error of `wac.SendMessage(ctx, jid, message)` for a client, a
  destination and a text; `none` when the message was submitted. -/
  SendMessage : Client → JID → String → Option String
  /-- The outcomes of the store calls made while recording. -/
  store : DBOutcomes

/-- The handler `KirimPesan`. -/
def KirimPesan (env : Env) (r : Request) (w : World) : World × Served :=
  if r.Method ≠ MethodPost then
    (w.log ("Metode " ++ r.Method ++ " tidak diizinkan di /kirim-pesan"),
      Served.response
        (balasanJSON StatusMethodNotAllowed "failed" ("Metode " ++ r.Method ++ " tidak diizinkan")))
  else
    let w1 := w.emit Event.readBody
    match json.Decode r.Body with
    | Except.error err =>
      (w1.log ("Gagal membaca body JSON : " ++ err),
        Served.response (balasanJSON StatusBadRequest "failed" "JSON body tidak valid"))
    | Except.ok request =>
      if request.No = "" ∨ request.Pesan = "" then
        (w1, Served.response
          (balasanJSON StatusBadRequest "failed" "Nilai 'No' atau 'Pesan' tidak boleh kosong"))
      else
        match w1.wac with
        | none =>
          (w1.log "WhatsApp belum terhubung",
            Served.response
              (balasanJSON StatusInternalServerError "failed" "WhatsApp belum terhubung"))
        | some client =>
          let jid : JID := { User := request.No, Server := DefaultUserServer }
          let w2 := w1.emit (Event.sendMessage client jid request.Pesan)
          match env.SendMessage client jid request.Pesan with
          | some err =>
            (w2.log ("Gagal mengirim pesan ke " ++ request.No ++ " : " ++ err),
              Served.response (httpError err StatusBadRequest))
          | none =>
            let recorded :=
              if w2.db_save_number = "yes" then SimpanNomor env.store request.No w2
              else Outcome.returned w2
            match recorded with
            | Outcome.panicked w3 reason => (w3, Served.aborted reason)
            | Outcome.returned w3 =>
              (w3.log ("Mengirim pesan ke +" ++ request.No ++ "\n"),
                Served.response
                  (balasanJSON StatusOK "success" ("Pesan berhasil dikirim ke " ++ request.No)))

/-! ## Reading a response -/

/-- The member `key` of a JSON reply; `none` when the body is not a JSON
object or has no such member. -/
def Response.member (r : Response) (key : String) : Option String :=
  match r.body with
  | Body.json members => (members.find? (fun m => m.1 == key)).map (fun m => m.2)
  | Body.text _ => none

/-- The reply is a JSON object with a `status` member equal to `"success"` or
`"failed"` and a `message` member, and its code is 200 exactly when the status
is `"success"`, and outside 200-299 exactly when it is `"failed"`. -/
def Response.wellFormed (r : Response) : Prop :=
  (r.member "status" = some "success" ∨ r.member "status" = some "failed") ∧
  (r.member "message").isSome ∧
  (r.code = 200 ↔ r.member "status" = some "success") ∧
  (¬ (200 ≤ r.code ∧ r.code ≤ 299) ↔ r.member "status" = some "failed")

instance (r : Response) : Decidable r.wellFormed := by
  unfold Response.wellFormed; infer_instance

/-- The events of a trace that submit a message. -/
def submissions (t : List Event) : List Event :=
  t.filter (fun e => match e with
    | Event.sendMessage _ _ _ => true
    | _ => false)

/-- The events of a trace that touch the store. -/
def storeCalls (t : List Event) : List Event :=
  t.filter (fun e => match e with
    | Event.dbPing _ => true
    | Event.dbClose _ => true
    | Event.sqlOpen _ => true
    | Event.queryRow _ _ => true
    | Event.exec _ _ => true
    | _ => false)

/-- The events of a trace that set up a session. -/
def sessionCalls (t : List Event) : List Event :=
  t.filter (fun e => match e with
    | Event.getQRChannel => true
    | Event.connect => true
    | _ => false)

/-! ## Vocabulary of the statements -/

/-- Is the event a call of `sql.Open`? -/
def Event.isOpen (e : Event) : Bool :=
  match e with
  | Event.sqlOpen _ => true
  | _ => false

/-- Successive calls of `KoneksiDB`, one for each element of `os`. -/
def KoneksiDBs (os : List DBOutcomes) (w : World) : World :=
  os.foldl (fun w1 o => KoneksiDB o w1) w

/-- The rows of the table for an identifier: those that
`SELECT ... WHERE nomor = ?` selects, under the collation `same`. -/
def rowsFor (same : String → String → Bool) (nomor : String) (rows : List Row) : List Row :=
  rows.filter (fun r => same r.nomor nomor)

/-- The binary collation: two values are equal when they are the same string. -/
def binary (a b : String) : Bool := a == b

/-- The store is live during a call: every ping and open succeeds, and the
lookup and the insert are carried out: a lookup fails only with "no rows", an
insert only on the width of the column or on the `UNIQUE` index. -/
def DBOutcomes.live (o : DBOutcomes) : Prop :=
  o.pingOld = none ∧ o.openErr = none ∧ o.pingNew = none ∧
    o.queryErr = none ∧ o.execErr = none

instance (o : DBOutcomes) : Decidable o.live := by
  unfold DBOutcomes.live; infer_instance

/-- Requests served one after the other by `KirimPesan`, each in its own
environment: the final world and the answers, in order.  A handler that panics
ends its own request only; the server goes on to the next one. -/
def KirimPesanN (calls : List (Env × Request)) (w : World) : World × List Served :=
  match calls with
  | [] => (w, [])
  | c :: rest =>
    let first := KirimPesan c.1 c.2 w
    let later := KirimPesanN rest first.1
    (later.1, first.2 :: later.2)

/-- The 200 reply of the handler for a message sent to `nomor`. -/
def replySent (nomor : String) : Served :=
  Served.response
    { code := 200
      header := [("Content-Type", "application/json")]
      body := Body.json [("status", "success"),
        ("message", "Pesan berhasil dikirim ke " ++ nomor)] }

/-- A request that sends to `nomor` with success while the store is live: it is
a POST whose body decodes to the destination `nomor` and a non-empty text, the
session `client` submits the message without error, and every store call of
the request succeeds. -/
def sendsTo (client : Client) (nomor : String) (c : Env × Request) : Prop :=
  c.2.Method = MethodPost ∧ c.1.store.live ∧
    ∃ pesan, pesan ≠ "" ∧ json.Decode c.2.Body = Except.ok ⟨nomor, pesan⟩ ∧
      c.1.SendMessage client ⟨nomor, DefaultUserServer⟩ pesan = none

/-- A member of the request object whose value the struct cannot take: its key
names `no` or `pesan` (case-insensitively) and its value is neither a string
nor `null`. -/
def json.wrongType (m : String × json.Member) : Bool :=
  (json.foldName m.1 == ['N', 'O'] || json.foldName m.1 == ['P', 'E', 'S', 'A', 'N']) &&
    (match m.2 with
      | json.Member.other _ => true
      | _ => false)

/-- The body does not begin with a JSON value that decodes into
`BodyKirimPesan`: it is empty or its first value is malformed or incomplete; or
its first value is neither an object nor `null`; or it is an object with a
member of the wrong type.  What follows the first value plays no part. -/
def json.refused (body : String) : Bool :=
  match json.readValue body.toList with
  | none => true
  | some (json.Top.other _, _) => true
  | some (json.Top.null, _) => false
  | some (json.Top.object members, _) => members.any json.wrongType

/-- The body is valid JSON: one JSON value, with nothing but white space
around it (what the library's `json.Valid` accepts). -/
def json.Valid (body : String) : Bool :=
  match json.readValue body.toList with
  | some (_, rest) => json.skipSpace rest == []
  | none => false

/-! ## Concrete inputs -/

/-- A store on which every call succeeds. -/
def storeUp : DBOutcomes :=
  { pingOld := none, openErr := none, pingNew := none, queryErr := none, execErr := none }

/-- A store that cannot be reached: `sql.Open` gives a handle, every ping fails. -/
def storeDown : DBOutcomes :=
  { pingOld := some "driver: bad connection"
    openErr := none
    pingNew := some "dial tcp 127.0.0.1:3306: connect: connection refused"
    queryErr := none
    execErr := none }

/-- A world in which the session is published and recording is disabled. -/
def worldSession : World :=
  { db_save_number := "no"
    dsn := "root:@tcp(127.0.0.1:3306)/kirimkan"
    db := none
    wac := some ⟨7⟩
    rows := []
    nextId := 1
    strict := true
    collation := binary
    nextHandle := 0
    closed := []
    trace := [] }

/-- A world in which no session is published. -/
def worldNoSession : World :=
  { worldSession with wac := none }

/-- A world in which the session is published, recording is enabled, and the
store handle is absent. -/
def worldRecording : World :=
  { worldSession with
    db_save_number := "yes"
    dsn := "root:@tcp(127.0.0.1)/kirimkan?parseTime=true" }

/-- A world with a store handle in use and an empty table, in strict mode. -/
def worldStore : World :=
  { worldRecording with db := some ⟨0⟩, nextHandle := 1 }

/-- The same world with the store not in strict mode. -/
def worldStoreLax : World :=
  { worldStore with strict := false }

/-- An environment in which the submission succeeds and the store is up. -/
def envSent : Env :=
  { SendMessage := fun _ _ _ => none, store := storeUp }

/-- An environment in which the submission succeeds and the store is down. -/
def envSentStoreDown : Env :=
  { SendMessage := fun _ _ _ => none, store := storeDown }

/-- An environment in which the submission fails. -/
def envNotSent : Env :=
  { SendMessage := fun _ _ _ => some "the store doesn't contain a device JID"
    store := storeUp }

/-- The request `POST /kirim-pesan` with body
`{"no": "6281234567890", "pesan": "hello"}`. -/
def reqHello : Request :=
  { Method := "POST", Body := "\x7b\"no\": \"6281234567890\", \"pesan\": \"hello\"\x7d" }

/-- The request with body `{"no": "", "pesan": "hi"}`. -/
def reqEmptyNo : Request :=
  { Method := "POST", Body := "\x7b\"no\": \"\", \"pesan\": \"hi\"\x7d" }

/-- The request `GET /kirim-pesan`. -/
def reqGet : Request :=
  { Method := "GET", Body := "" }

/-- A request whose body is a valid request object followed by text that is
not JSON. -/
def reqTrailing : Request :=
  { Method := "POST"
    Body := "\x7b\"no\": \"6281234567890\", \"pesan\": \"hello\"\x7d this is not JSON" }

/-- A request whose `no` member is a number. -/
def reqNumber : Request :=
  { Method := "POST", Body := "\x7b\"no\": 6281234567890, \"pesan\": \"hello\"\x7d" }

/-- An identifier of 17 characters. -/
def nomorPanjang : String := "62812345678901234"

/-- A first start (no stored identity) in which pairing ends with a timeout. -/
def pairingTimeout : WAOutcomes :=
  { sqlstoreNew := none
    getFirstDevice := none
    client := ⟨7⟩
    storeID := none
    getQRChannel := Except.ok [⟨"code", "2@AbCdEf"⟩, ⟨"code", "2@GhIjKl"⟩, ⟨"timeout", ""⟩]
    connect := none }

/-! ## Store Connection Manager: the check-and-replace policy -/

theorem buatBaru_db (o : DBOutcomes) (w : World) :
    (KoneksiDB.buatBaru o w).db =
      if o.openErr = none ∧ o.pingNew = none then some ⟨w.nextHandle⟩ else none := by
  unfold KoneksiDB.buatBaru
  cases ho : o.openErr <;> cases hp : o.pingNew <;>
    simp [World.emit, World.log, World.dbClose]

theorem buatBaru_nextHandle (o : DBOutcomes) (w : World) :
    w.nextHandle ≤ (KoneksiDB.buatBaru o w).nextHandle := by
  unfold KoneksiDB.buatBaru
  cases ho : o.openErr <;> cases hp : o.pingNew <;>
    simp [World.emit, World.log, World.dbClose]

theorem buatBaru_closed (o : DBOutcomes) (w : World) (h : DBHandle) (hc : h ∈ w.closed) :
    h ∈ (KoneksiDB.buatBaru o w).closed := by
  unfold KoneksiDB.buatBaru
  cases ho : o.openErr <;> cases hp : o.pingNew <;>
    simp [World.emit, World.log, World.dbClose, hc]

theorem buatBaru_trace (o : DBOutcomes) (w : World) :
    ∃ delta, (KoneksiDB.buatBaru o w).trace = w.trace ++ delta ∧
      (delta.filter Event.isOpen).length = 1 ∧
      (o.openErr = none → Event.dbPing ⟨w.nextHandle⟩ ∈ delta) := by
  unfold KoneksiDB.buatBaru
  cases ho : o.openErr <;> cases hp : o.pingNew <;>
    simp [World.emit, World.log, World.dbClose, Event.isOpen, List.filter]


theorem KoneksiDB_keeps_out (o : DBOutcomes) (w : World) (h : DBHandle)
    (hlt : h.id < w.nextHandle) (hne : w.db ≠ some h) :
    h.id < (KoneksiDB o w).nextHandle ∧ (KoneksiDB o w).db ≠ some h := by
  have key : ∀ w1 : World, h.id < w1.nextHandle →
      h.id < (KoneksiDB.buatBaru o w1).nextHandle ∧ (KoneksiDB.buatBaru o w1).db ≠ some h := by
    intro w1 h1
    refine ⟨lt_of_lt_of_le h1 (buatBaru_nextHandle o w1), ?_⟩
    rw [buatBaru_db]
    split
    · intro heq
      have : h.id = w1.nextHandle := by
        cases h; simp at heq; simp [heq]
      omega
    · simp
  unfold KoneksiDB
  cases hdb : w.db with
  | none => exact key w hlt
  | some g =>
    cases hp : o.pingOld with
    | none =>
      simp only [World.emit]
      exact ⟨hlt, hne⟩
    | some e => exact key _ (by simpa [World.emit, World.dbClose] using hlt)

theorem KoneksiDBs_keeps_out (os : List DBOutcomes) (w : World) (h : DBHandle)
    (hlt : h.id < w.nextHandle) (hne : w.db ≠ some h) :
    (KoneksiDBs os w).db ≠ some h := by
  induction os generalizing w with
  | nil => simpa [KoneksiDBs] using hne
  | cons o rest ih =>
    have hk := KoneksiDB_keeps_out o w h hlt hne
    simpa [KoneksiDBs] using ih (KoneksiDB o w) hk.1 hk.2

/-- The handle in `db`, if any, was given out by an earlier `sql.Open`: this holds at
start-up, where `db` is nil, and every call of `KoneksiDB` keeps it. -/
theorem KoneksiDB_handle_known (o : DBOutcomes) (w : World)
    (hw : ∀ h, w.db = some h → h.id < w.nextHandle) :
    ∀ h, (KoneksiDB o w).db = some h → h.id < (KoneksiDB o w).nextHandle := by
  have key : ∀ w1 : World, ∀ h, (KoneksiDB.buatBaru o w1).db = some h →
      h.id < (KoneksiDB.buatBaru o w1).nextHandle := by
    intro w1 h
    unfold KoneksiDB.buatBaru
    cases ho : o.openErr <;> cases hp : o.pingNew <;>
      simp [World.emit, World.log, World.dbClose]
    intro heq
    rw [← heq]
    simp
  unfold KoneksiDB
  cases hdb : w.db with
  | none => exact key w
  | some g =>
    cases hp : o.pingOld with
    | none =>
      intro h hh
      have : w.db = some h := by simpa [World.emit, hdb] using hh
      simpa [World.emit] using hw h this
    | some e => exact key _

/-- C10: `KoneksiDB` follows the check-and-replace policy on the shared handle `db`, for
every prior state in which the handle, if any, was given out by an earlier `sql.Open`,
and for every outcome of ping and open.  (i) A handle whose probe succeeds is left as it
is: the call only pings it, and opens nothing.  (ii) A handle whose probe fails is closed
and is not the shared handle after the call, nor after any later calls.  (iii) In that
case and when there was no handle, exactly one `sql.Open` is made, and the shared handle
is afterwards the freshly opened handle when the open and its probe succeed, and absent
otherwise.  Hence the shared handle is afterwards absent, or a handle that was pinged
with success during the call. -/
theorem KoneksiDB_check_and_replace (o : DBOutcomes) (w : World)
    (hw : ∀ h, w.db = some h → h.id < w.nextHandle) :
    (∀ h, w.db = some h → o.pingOld = none → KoneksiDB o w = w.emit (Event.dbPing h)) ∧
    (∀ h err, w.db = some h → o.pingOld = some err →
      h ∈ (KoneksiDB o w).closed ∧ (KoneksiDB o w).db ≠ some h ∧
      ∀ os, (KoneksiDBs os (KoneksiDB o w)).db ≠ some h) ∧
    ((w.db = none ∨ ∃ h err, w.db = some h ∧ o.pingOld = some err) →
      (∃ delta, (KoneksiDB o w).trace = w.trace ++ delta ∧
        (delta.filter Event.isOpen).length = 1) ∧
      (KoneksiDB o w).db =
        if o.openErr = none ∧ o.pingNew = none then some ⟨w.nextHandle⟩ else none) ∧
    ((KoneksiDB o w).db = none ∨
      ∃ h delta, (KoneksiDB o w).db = some h ∧ (KoneksiDB o w).trace = w.trace ++ delta ∧
        Event.dbPing h ∈ delta ∧
        ((w.db = some h ∧ o.pingOld = none) ∨
          (h = ⟨w.nextHandle⟩ ∧ o.openErr = none ∧ o.pingNew = none))) := by
  refine ⟨?_, ?_, ?_, ?_⟩
  · intro h hdb hp
    simp [KoneksiDB, hdb, hp]
  · intro h err hdb hp
    have hlt := hw h hdb
    have hrun : KoneksiDB o w = KoneksiDB.buatBaru o ((w.emit (Event.dbPing h)).dbClose h) := by
      simp [KoneksiDB, hdb, hp]
    have hcl : h ∈ (KoneksiDB o w).closed := by
      rw [hrun]; exact buatBaru_closed o _ h (by simp [World.dbClose])
    have hdb2 : (KoneksiDB o w).db ≠ some h := by
      rw [hrun, buatBaru_db]
      split
      · intro heq
        have : h.id = w.nextHandle := by
          cases h; simp [World.emit, World.dbClose] at heq; simp [heq]
        omega
      · simp
    have hlt2 : h.id < (KoneksiDB o w).nextHandle := by
      rw [hrun]
      exact lt_of_lt_of_le (by simpa [World.emit, World.dbClose] using hlt)
        (buatBaru_nextHandle o _)
    exact ⟨hcl, hdb2, fun os => KoneksiDBs_keeps_out os _ h hlt2 hdb2⟩
  · intro hcase
    rcases hcase with hnone | ⟨h, err, hdb, hp⟩
    · have hrun : KoneksiDB o w = KoneksiDB.buatBaru o w := by simp [KoneksiDB, hnone]
      rw [hrun]
      obtain ⟨delta, hd, hone, _⟩ := buatBaru_trace o w
      exact ⟨⟨delta, hd, hone⟩, buatBaru_db o w⟩
    · have hrun : KoneksiDB o w = KoneksiDB.buatBaru o ((w.emit (Event.dbPing h)).dbClose h) := by
        simp [KoneksiDB, hdb, hp]
      rw [hrun]
      obtain ⟨delta, hd, hone, _⟩ := buatBaru_trace o ((w.emit (Event.dbPing h)).dbClose h)
      refine ⟨⟨[Event.dbPing h, Event.dbClose h] ++ delta, ?_, ?_⟩, ?_⟩
      · rw [hd]; simp [World.emit, World.dbClose]
      · simpa [List.filter, Event.isOpen] using hone
      · rw [buatBaru_db]; simp [World.emit, World.dbClose]
  · have fresh : ∀ (w1 : World) (pre : List Event), w1.trace = w.trace ++ pre →
        w1.nextHandle = w.nextHandle →
        ((KoneksiDB.buatBaru o w1).db = none ∨
          ∃ h delta, (KoneksiDB.buatBaru o w1).db = some h ∧
            (KoneksiDB.buatBaru o w1).trace = w.trace ++ delta ∧ Event.dbPing h ∈ delta ∧
            ((w.db = some h ∧ o.pingOld = none) ∨
              (h = ⟨w.nextHandle⟩ ∧ o.openErr = none ∧ o.pingNew = none))) := by
      intro w1 pre htr hnh
      obtain ⟨delta, hd, _, hping⟩ := buatBaru_trace o w1
      by_cases hok : o.openErr = none ∧ o.pingNew = none
      · right
        refine ⟨⟨w.nextHandle⟩, pre ++ delta, ?_, ?_, ?_, Or.inr ⟨rfl, hok.1, hok.2⟩⟩
        · rw [buatBaru_db, if_pos hok, hnh]
        · rw [hd, htr, List.append_assoc]
        · have := hping hok.1
          rw [hnh] at this
          exact List.mem_append_right _ this
      · left
        rw [buatBaru_db, if_neg hok]
    have hcases : w.db = none ∨ ∃ g, w.db = some g := by
      cases w.db
      · exact Or.inl rfl
      · exact Or.inr ⟨_, rfl⟩
    rcases hcases with hdb | ⟨g, hdb⟩
    · have hrun : KoneksiDB o w = KoneksiDB.buatBaru o w := by simp [KoneksiDB, hdb]
      rw [hrun]
      exact fresh w [] (by simp) rfl
    · cases hp : o.pingOld with
      | none =>
        right
        refine ⟨g, [Event.dbPing g], ?_, ?_, ?_, Or.inl ⟨hdb, rfl⟩⟩
        · simp [KoneksiDB, hdb, hp, World.emit]
        · simp [KoneksiDB, hdb, hp, World.emit]
        · simp
      | some e =>
        have hrun : KoneksiDB o w =
            KoneksiDB.buatBaru o ((w.emit (Event.dbPing g)).dbClose g) := by
          simp [KoneksiDB, hdb, hp]
        rw [hrun]
        have := fresh ((w.emit (Event.dbPing g)).dbClose g) [Event.dbPing g, Event.dbClose g]
          (by simp [World.emit, World.dbClose]) (by simp [World.emit, World.dbClose])
        rcases this with hn | ⟨h, delta, h1, h2, h3, h4⟩
        · exact Or.inl hn
        · refine Or.inr ⟨h, delta, h1, h2, h3, ?_⟩
          rcases h4 with ⟨_, h6⟩ | h5
          · rw [hp] at h6; exact absurd h6 (by simp)
          · exact Or.inr h5


/-! ## Destination Registry -/

theorem buatBaru_store (o : DBOutcomes) (w : World) :
    (KoneksiDB.buatBaru o w).rows = w.rows ∧ (KoneksiDB.buatBaru o w).nextId = w.nextId ∧
      (KoneksiDB.buatBaru o w).strict = w.strict ∧
      (KoneksiDB.buatBaru o w).collation = w.collation := by
  unfold KoneksiDB.buatBaru
  cases ho : o.openErr <;> cases hp : o.pingNew <;>
    simp [World.emit, World.log, World.dbClose]

theorem KoneksiDB_store (o : DBOutcomes) (w : World) :
    (KoneksiDB o w).rows = w.rows ∧ (KoneksiDB o w).nextId = w.nextId ∧
      (KoneksiDB o w).strict = w.strict ∧ (KoneksiDB o w).collation = w.collation := by
  unfold KoneksiDB
  cases hdb : w.db with
  | none => exact buatBaru_store o w
  | some g =>
    cases hp : o.pingOld with
    | none => simp [World.emit]
    | some e =>
      simpa [World.emit, World.dbClose] using
        buatBaru_store o ((w.emit (Event.dbPing g)).dbClose g)

theorem KoneksiDB_live (o : DBOutcomes) (w : World) (hl : o.live) :
    ∃ h, (KoneksiDB o w).db = some h := by
  obtain ⟨h1, h2, h3, _, _⟩ := hl
  unfold KoneksiDB
  cases hdb : w.db with
  | none => exact ⟨⟨w.nextHandle⟩, by rw [buatBaru_db]; simp [h2, h3]⟩
  | some g => exact ⟨g, by simp [h1, World.emit, hdb]⟩

theorem fitColumn_short (strict : Bool) (nomor : String) (hlen : nomor.length ≤ nomorWidth) :
    fitColumn strict nomor = some nomor := by
  simp [fitColumn, hlen]

/-- One call of `SimpanNomor` on a live store with an identifier that fits the column:
it returns, and the table gains a row for the identifier exactly when it had none. -/
theorem SimpanNomor_live (o : DBOutcomes) (nomor : String) (w : World) (hl : o.live)
    (hlen : nomor.length ≤ nomorWidth) :
    ∃ w1, SimpanNomor o nomor w = Outcome.returned w1 ∧
      w1.collation = w.collation ∧
      w1.rows = (if w.rows.any (fun r => w.collation r.nomor nomor) then w.rows
        else w.rows ++ [⟨w.nextId, nomor⟩]) := by
  obtain ⟨h, hh⟩ := KoneksiDB_live o w hl
  obtain ⟨hr, hn, hs, hc⟩ := KoneksiDB_store o w
  obtain ⟨_, _, _, hq, he⟩ := hl
  unfold SimpanNomor
  simp only [hh]
  by_cases hany : w.rows.any (fun r => w.collation r.nomor nomor) = true
  · simp [queryRow, hq, World.emit, hr, hc, hany]
  · simp [queryRow, hq, World.emit, hr, hc, hany, execInsert, he, fitColumn_short _ _ hlen,
      World.log, hn]

theorem rowsFor_ne_nil_of_any (same : String → String → Bool) (nomor : String)
    (rows : List Row) (hany : rows.any (fun r => same r.nomor nomor) = true) :
    0 < (rowsFor same nomor rows).length := by
  rw [List.any_eq_true] at hany
  obtain ⟨r, hr, hrn⟩ := hany
  have : r ∈ rowsFor same nomor rows := by
    simp only [rowsFor, List.mem_filter]
    exact ⟨hr, hrn⟩
  exact List.length_pos_of_mem this

theorem rowsFor_nil_of_not_any (same : String → String → Bool) (nomor : String)
    (rows : List Row) (hany : ¬ rows.any (fun r => same r.nomor nomor) = true) :
    rowsFor same nomor rows = [] := by
  simp only [rowsFor, List.filter_eq_nil_iff]
  intro r hr hrn
  exact hany (List.any_eq_true.mpr ⟨r, hr, hrn⟩)

/-- Later calls on a live store, once the identifier has a row: they return and leave
the table as it is. -/
theorem SimpanNomorN_present (os : List DBOutcomes) (nomor : String) (w : World)
    (hl : ∀ o ∈ os, o.live) (hlen : nomor.length ≤ nomorWidth)
    (hany : w.rows.any (fun r => w.collation r.nomor nomor) = true) :
    ∃ w1, SimpanNomorN os nomor w = Outcome.returned w1 ∧ w1.rows = w.rows := by
  induction os generalizing w with
  | nil => exact ⟨w, rfl, rfl⟩
  | cons o rest ih =>
    obtain ⟨w1, h1, hc1, hr1⟩ := SimpanNomor_live o nomor w (hl o (by simp)) hlen
    rw [if_pos hany] at hr1
    obtain ⟨w2, h2, hr2⟩ := ih w1 (fun o ho => hl o (by simp [ho]))
      (by rw [hr1, hc1]; exact hany)
    refine ⟨w2, ?_, by rw [hr2, hr1]⟩
    simp [SimpanNomorN, h1, h2]

theorem buatBaru_globals (o : DBOutcomes) (w : World) :
    (KoneksiDB.buatBaru o w).wac = w.wac ∧
      (KoneksiDB.buatBaru o w).db_save_number = w.db_save_number := by
  unfold KoneksiDB.buatBaru
  cases ho : o.openErr <;> cases hp : o.pingNew <;>
    simp [World.emit, World.log, World.dbClose]

theorem KoneksiDB_globals (o : DBOutcomes) (w : World) :
    (KoneksiDB o w).wac = w.wac ∧ (KoneksiDB o w).db_save_number = w.db_save_number := by
  unfold KoneksiDB
  cases hdb : w.db with
  | none => exact buatBaru_globals o w
  | some g =>
    cases hp : o.pingOld with
    | none => simp [World.emit]
    | some e =>
      simpa [World.emit, World.dbClose] using
        buatBaru_globals o ((w.emit (Event.dbPing g)).dbClose g)

/-- A call of `SimpanNomor` that returns leaves `wac` and `db_save_number` as they are. -/
theorem SimpanNomor_globals (o : DBOutcomes) (nomor : String) (w w1 : World)
    (h : SimpanNomor o nomor w = Outcome.returned w1) :
    w1.wac = w.wac ∧ w1.db_save_number = w.db_save_number := by
  obtain ⟨hw, hs⟩ := KoneksiDB_globals o w
  unfold SimpanNomor at h
  cases hdb : (KoneksiDB o w).db with
  | none => simp [hdb] at h
  | some g =>
    simp only [hdb] at h
    cases hq : queryRow o ((KoneksiDB o w).emit (Event.queryRow g nomor)) nomor with
    | found =>
      simp only [hq, Outcome.returned.injEq] at h
      subst h
      simp [World.emit, hw, hs]
    | failed err =>
      simp only [hq, Outcome.returned.injEq] at h
      subst h
      simp [World.emit, World.log, hw, hs]
    | errNoRows =>
      simp only [hq, Outcome.returned.injEq] at h
      subst h
      cases hx : execInsert o
          (((KoneksiDB o w).emit (Event.queryRow g nomor)).emit (Event.exec g nomor)) nomor with
      | error err => simp [World.emit, World.log, hw, hs]
      | ok w2 =>
        unfold execInsert at hx
        cases he : o.execErr with
        | some err => simp [he] at hx
        | none =>
          simp only [he] at hx
          split at hx
          · simp at hx
          · split at hx
            · simp at hx
            · simp only [Except.ok.injEq] at hx
              subst hx
              simp [World.emit, World.log, hw, hs]

/-- N calls of `SimpanNomor` on a live store, N ≥ 1, with an identifier that fits the
column: they return, and the table is the initial one, with one row more for the
identifier when it had none. -/
theorem SimpanNomorN_rows (os : List DBOutcomes) (nomor : String) (w : World)
    (hN : 1 ≤ os.length) (hl : ∀ o ∈ os, o.live)
    (hrefl : ∀ s, w.collation s s = true) (hlen : nomor.length ≤ nomorWidth) :
    ∃ w1, SimpanNomorN os nomor w = Outcome.returned w1 ∧
      w1.rows = (if w.rows.any (fun r => w.collation r.nomor nomor) then w.rows
        else w.rows ++ [⟨w.nextId, nomor⟩]) := by
  cases os with
  | nil => simp at hN
  | cons o rest =>
    obtain ⟨w1, h1, hc1, hr1⟩ := SimpanNomor_live o nomor w (hl o (by simp)) hlen
    have hany1 : w1.rows.any (fun r => w1.collation r.nomor nomor) = true := by
      rw [hr1, hc1]
      split
      · assumption
      · simp [hrefl]
    obtain ⟨w2, h2, hr2⟩ :=
      SimpanNomorN_present rest nomor w1 (fun o ho => hl o (by simp [ho])) hlen hany1
    exact ⟨w2, by simp [SimpanNomorN, h1, h2], by rw [hr2, hr1]⟩

/-- The table after recording: exactly one row for the identifier, and the rows of the
other identifiers as before. -/
theorem recorded_once (nomor : String) (w : World)
    (hrefl : ∀ s, w.collation s s = true)
    (huniq : ∀ n, (rowsFor w.collation n w.rows).length ≤ 1) :
    (rowsFor w.collation nomor
      (if w.rows.any (fun r => w.collation r.nomor nomor) then w.rows
        else w.rows ++ [⟨w.nextId, nomor⟩])).length = 1 ∧
    ∀ n, w.collation nomor n = false →
      rowsFor w.collation n
        (if w.rows.any (fun r => w.collation r.nomor nomor) then w.rows
          else w.rows ++ [⟨w.nextId, nomor⟩]) = rowsFor w.collation n w.rows := by
  refine ⟨?_, ?_⟩
  · split
    · rename_i hany
      have := rowsFor_ne_nil_of_any w.collation nomor w.rows hany
      have := huniq nomor
      omega
    · rename_i hany
      have h0 := rowsFor_nil_of_not_any w.collation nomor w.rows hany
      simp only [rowsFor] at h0 ⊢
      simp [List.filter_append, h0, hrefl]
  · intro n hn
    split
    · rfl
    · simp only [rowsFor, List.filter_append]
      simp [List.filter, hn]

/-- One successful send with recording enabled on a live store: the reply is the 200
reply, the session and the recording flag stay, and the table is changed as by one call
of `SimpanNomor`. -/
theorem KirimPesan_recorded (client : Client) (nomor : String) (c : Env × Request)
    (w : World) (hc : sendsTo client nomor c) (hwac : w.wac = some client)
    (hrec : w.db_save_number = "yes") (hno : nomor ≠ "")
    (hlen : nomor.length ≤ nomorWidth) :
    (KirimPesan c.1 c.2 w).2 = replySent nomor ∧
    (KirimPesan c.1 c.2 w).1.wac = some client ∧
    (KirimPesan c.1 c.2 w).1.db_save_number = "yes" ∧
    (KirimPesan c.1 c.2 w).1.collation = w.collation ∧
    (KirimPesan c.1 c.2 w).1.rows =
      (if w.rows.any (fun r => w.collation r.nomor nomor) then w.rows
        else w.rows ++ [⟨w.nextId, nomor⟩]) := by
  obtain ⟨hpost, hlive, pesan, hpesan, hdec, hsend⟩ := hc
  obtain ⟨w1, h1, hc1, hr1⟩ := SimpanNomor_live c.1.store nomor
    ((w.emit Event.readBody).emit
      (Event.sendMessage client ⟨nomor, DefaultUserServer⟩ pesan)) hlive hlen
  obtain ⟨hg1, hg2⟩ := SimpanNomor_globals _ _ _ _ h1
  have hrec2 : ((w.emit Event.readBody).emit
      (Event.sendMessage client ⟨nomor, DefaultUserServer⟩ pesan)).db_save_number = "yes" := by
    simpa [World.emit] using hrec
  have hwac2 : (w.emit Event.readBody).wac = some client := by
    simpa [World.emit] using hwac
  have hrun : KirimPesan c.1 c.2 w =
      (w1.log ("Mengirim pesan ke +" ++ nomor ++ "\n"), replySent nomor) := by
    simp only [KirimPesan, hpost, hdec, hno, hpesan, hwac2, hsend, hrec2, h1]
    simp [replySent, balasanJSON, StatusOK]
  rw [hrun]
  refine ⟨rfl, ?_, ?_, ?_, ?_⟩
  · simpa [World.log, World.emit, hg1] using hwac
  · simpa [World.log, World.emit, hg2] using hrec
  · simpa [World.log, World.emit] using hc1
  · simpa [World.log, World.emit] using hr1

/-- Later successful sends, once the identifier has a row: every reply is the 200 reply
and the table stays as it is. -/
theorem KirimPesanN_present (client : Client) (nomor : String)
    (calls : List (Env × Request)) (w : World)
    (hcalls : ∀ c ∈ calls, sendsTo client nomor c) (hwac : w.wac = some client)
    (hrec : w.db_save_number = "yes") (hno : nomor ≠ "")
    (hlen : nomor.length ≤ nomorWidth)
    (hany : w.rows.any (fun r => w.collation r.nomor nomor) = true) :
    (KirimPesanN calls w).2 = List.replicate calls.length (replySent nomor) ∧
    (KirimPesanN calls w).1.rows = w.rows := by
  induction calls generalizing w with
  | nil => simp [KirimPesanN]
  | cons c rest ih =>
    obtain ⟨k1, k2, k3, k4, k5⟩ :=
      KirimPesan_recorded client nomor c w (hcalls c (by simp)) hwac hrec hno hlen
    rw [if_pos hany] at k5
    obtain ⟨i1, i2⟩ := ih (KirimPesan c.1 c.2 w).1 (fun c hc => hcalls c (by simp [hc]))
      k2 k3 (by rw [k5, k4]; exact hany)
    refine ⟨?_, ?_⟩
    · simp [KirimPesanN, k1, i1, List.replicate_succ]
    · simp [KirimPesanN, i2, k5]

/-- N successful sends to one identifier, N ≥ 1, with recording enabled on a live store:
every reply is the 200 reply, and the table is the initial one, with one row more for the
identifier when it had none. -/
theorem KirimPesanN_rows (client : Client) (nomor : String)
    (calls : List (Env × Request)) (w : World) (hN : 1 ≤ calls.length)
    (hcalls : ∀ c ∈ calls, sendsTo client nomor c) (hwac : w.wac = some client)
    (hrec : w.db_save_number = "yes") (hno : nomor ≠ "")
    (hrefl : ∀ s, w.collation s s = true) (hlen : nomor.length ≤ nomorWidth) :
    (KirimPesanN calls w).2 = List.replicate calls.length (replySent nomor) ∧
    (KirimPesanN calls w).1.rows =
      (if w.rows.any (fun r => w.collation r.nomor nomor) then w.rows
        else w.rows ++ [⟨w.nextId, nomor⟩]) := by
  cases calls with
  | nil => simp at hN
  | cons c rest =>
    obtain ⟨k1, k2, k3, k4, k5⟩ :=
      KirimPesan_recorded client nomor c w (hcalls c (by simp)) hwac hrec hno hlen
    have hany1 : (KirimPesan c.1 c.2 w).1.rows.any
        (fun r => (KirimPesan c.1 c.2 w).1.collation r.nomor nomor) = true := by
      rw [k5, k4]
      split
      · assumption
      · simp [hrefl]
    obtain ⟨i1, i2⟩ := KirimPesanN_present client nomor rest (KirimPesan c.1 c.2 w).1
      (fun c hc => hcalls c (by simp [hc])) k2 k3 hno hlen hany1
    refine ⟨?_, ?_⟩
    · simp [KirimPesanN, k1, i1, List.replicate_succ]
    · simp [KirimPesanN, i2, k5]

/-- C9 (as amended): on a live store whose table holds at most one row per `nomor`, for
every destination identifier of at most 16 characters (the width of column `nomor`) and
every N ≥ 1: the N calls of `SimpanNomor` with that identifier all return, the table then
holds exactly one row for the identifier, and the rows of every other identifier are
unchanged; equivalently, N successful sends to the identifier with recording enabled are
all answered 200, leave the table that the N calls of `SimpanNomor` leave, and so exactly
one row for the identifier and every other row unchanged.  Rows are those the lookup
selects, under whatever collation the table has. -/
theorem SimpanNomorN_records_once (nomor : String) (w : World)
    (hrefl : ∀ s, w.collation s s = true)
    (huniq : ∀ n, (rowsFor w.collation n w.rows).length ≤ 1)
    (hlen : nomor.length ≤ nomorWidth) :
    (∀ os : List DBOutcomes, 1 ≤ os.length → (∀ o ∈ os, o.live) →
      ∃ w1, SimpanNomorN os nomor w = Outcome.returned w1 ∧
        (rowsFor w.collation nomor w1.rows).length = 1 ∧
        ∀ n, w.collation nomor n = false →
          rowsFor w.collation n w1.rows = rowsFor w.collation n w.rows) ∧
    (∀ (calls : List (Env × Request)) (client : Client), 1 ≤ calls.length →
      w.wac = some client → w.db_save_number = "yes" → nomor ≠ "" →
      (∀ c ∈ calls, sendsTo client nomor c) →
      (KirimPesanN calls w).2 = List.replicate calls.length (replySent nomor) ∧
      (∃ w1, SimpanNomorN (calls.map (fun c => c.1.store)) nomor w = Outcome.returned w1 ∧
        (KirimPesanN calls w).1.rows = w1.rows) ∧
      (rowsFor w.collation nomor (KirimPesanN calls w).1.rows).length = 1 ∧
      ∀ n, w.collation nomor n = false →
        rowsFor w.collation n (KirimPesanN calls w).1.rows = rowsFor w.collation n w.rows) := by
  obtain ⟨hone, hother⟩ := recorded_once nomor w hrefl huniq
  refine ⟨?_, ?_⟩
  · intro os hN hl
    obtain ⟨w1, h1, hr1⟩ := SimpanNomorN_rows os nomor w hN hl hrefl hlen
    exact ⟨w1, h1, by rw [hr1]; exact hone, fun n hn => by rw [hr1]; exact hother n hn⟩
  · intro calls client hN hwac hrec hno hcalls
    obtain ⟨k1, k2⟩ := KirimPesanN_rows client nomor calls w hN hcalls hwac hrec hno hrefl hlen
    obtain ⟨w1, h1, hr1⟩ := SimpanNomorN_rows (calls.map (fun c => c.1.store)) nomor w
      (by simpa using hN)
      (by
        intro o ho
        obtain ⟨c, hc, rfl⟩ := List.mem_map.mp ho
        exact (hcalls c hc).2.1)
      hrefl hlen
    exact ⟨k1, ⟨w1, h1, by rw [k2, hr1]⟩, by rw [k2]; exact hone,
      fun n hn => by rw [k2]; exact hother n hn⟩

/-! ## The decoder: what follows the first value is not read -/

theorem skipSpace_append (cs e : List Char) (c : Char) (r : List Char)
    (h : json.skipSpace cs = c :: r) : json.skipSpace (cs ++ e) = c :: (r ++ e) := by
  induction cs with
  | nil => simp [json.skipSpace] at h
  | cons a cs ih =>
    simp only [json.skipSpace, List.cons_append] at h ⊢
    split
    · rename_i hs
      rw [if_pos hs] at h
      exact ih h
    · rename_i hs
      rw [if_neg hs] at h
      injection h with h1 h2
      subst h1 h2
      rfl

theorem scanString_append (hi : Option Nat) (acc cs e : List Char) (s : String) (r : List Char)
    (h : json.scanString hi acc cs = some (s, r)) :
    json.scanString hi acc (cs ++ e) = some (s, r ++ e) := by
  induction hi, acc, cs using json.scanString.induct with
  | case1 hi acc => simp [json.scanString.eq_def] at h
  | case2 hi acc c cs hc =>
    rw [List.cons_append]
    rw [json.scanString.eq_def] at h ⊢
    simp only [hc, if_true] at h ⊢
    simp only [Option.some.injEq, Prod.mk.injEq] at h ⊢
    exact ⟨h.1, by rw [h.2]⟩
  | case3 hi acc c h1 h2 =>
    rw [json.scanString.eq_def] at h
    simp [h1, h2] at h
  | case4 hi acc c h1 h2 c1 h3 a b c1 d rest2 hg =>
    rw [json.scanString.eq_def] at h
    simp [h1, h2, h3, hg] at h
  | case5 hi acc c h1 h2 c1 h3 a b c1 d rest2 val hg hv ih =>
    simp only [List.cons_append]
    rw [json.scanString.eq_def] at h ⊢
    simp only [h1, h2, h3, hg, hv, if_true, if_false, Bool.false_eq_true, and_self] at h ⊢
    exact ih h
  | case6 acc c h1 h2 c1 h3 a b c1 d rest2 val hg hv hl h0 ih =>
    simp only [List.cons_append]
    rw [json.scanString.eq_def] at h ⊢
    simp only [h1, h2, h3, hg, hv, hl, if_true, if_false, Bool.false_eq_true, and_self] at h ⊢
    exact ih h
  | case7 acc c h1 h2 c1 h3 a b c1 d rest2 val hg hv hl ih =>
    simp only [List.cons_append]
    rw [json.scanString.eq_def] at h ⊢
    simp only [h1, h2, h3, hg, hv, hl, if_true, if_false, Bool.false_eq_true, and_self] at h ⊢
    exact ih h
  | case8 hi acc c h1 h2 c1 h3 a b c1 d rest2 val hg hv hl ih =>
    simp only [List.cons_append]
    rw [json.scanString.eq_def] at h ⊢
    simp only [h1, h2, h3, hg, hv, hl, if_true, if_false, Bool.false_eq_true, and_self] at h ⊢
    exact ih h
  | case9 hi acc c h1 h2 c1 cs h3 hshort =>
    rw [json.scanString.eq_def] at h
    simp only [h1, h2, h3, if_true, if_false, Bool.false_eq_true] at h
    exact absurd h (by simp)
  | case10 hi acc c h1 h2 c1 cs h3 ch hu ih =>
    simp only [List.cons_append]
    rw [json.scanString.eq_def] at h ⊢
    simp only [h1, h2, h3, hu, if_true, if_false, Bool.false_eq_true] at h ⊢
    exact ih h
  | case11 hi acc c h1 h2 c1 cs h3 hu =>
    rw [json.scanString.eq_def] at h
    simp [h1, h2, h3, hu] at h
  | case12 hi acc c cs h1 h2 h3 =>
    rw [json.scanString.eq_def] at h
    simp [h1, h2, h3] at h
  | case13 hi acc c cs h1 h2 h3 ih =>
    simp only [List.cons_append]
    rw [json.scanString.eq_def] at h ⊢
    simp only [h1, h2, h3, if_true, if_false, Bool.false_eq_true] at h ⊢
    exact ih h

theorem skipDigits_append (cs e : List Char) (c : Char) (r : List Char)
    (h : json.skipDigits cs = c :: r) : json.skipDigits (cs ++ e) = c :: (r ++ e) := by
  induction cs with
  | nil => simp [json.skipDigits] at h
  | cons a cs ih =>
    simp only [json.skipDigits, List.cons_append] at h ⊢
    split
    · rename_i hs
      rw [if_pos hs] at h
      exact ih h
    · rename_i hs
      rw [if_neg hs] at h
      injection h with h1 h2
      subst h1 h2
      rfl

theorem scanExponent_append (cs e : List Char) (c : Char) (r : List Char)
    (h : json.scanExponent cs = some (c :: r)) :
    json.scanExponent (cs ++ e) = some (c :: (r ++ e)) := by
  cases cs with
  | nil => simp [json.scanExponent] at h
  | cons x r0 =>
    simp only [json.scanExponent, List.cons_append] at h ⊢
    by_cases hx : (x == 'e' || x == 'E') = true
    · rw [if_pos hx] at h ⊢
      cases r0 with
      | nil => simp at h
      | cons s r2 =>
        simp only [List.cons_append] at h ⊢
        by_cases hs : (s == '+' || s == '-') = true
        · simp only [hs, if_true] at h ⊢
          cases r2 with
          | nil => simp at h
          | cons d r3 =>
            simp only [List.cons_append] at h ⊢
            by_cases hd : d.isDigit = true
            · simp only [hd, if_true, Option.some.injEq] at h ⊢
              exact skipDigits_append r3 e c r h
            · simp [hd] at h
        · simp only [hs, if_false, Bool.false_eq_true] at h ⊢
          by_cases hd : s.isDigit = true
          · simp only [hd, if_true, Option.some.injEq] at h ⊢
            exact skipDigits_append r2 e c r h
          · simp [hd] at h
    · rw [if_neg hx] at h ⊢
      simp only [Option.some.injEq] at h ⊢
      injection h with h1 h2
      subst h1 h2
      rfl

theorem scanFraction_append (cs e : List Char) (c : Char) (r : List Char)
    (h : json.scanFraction cs = some (c :: r)) :
    json.scanFraction (cs ++ e) = some (c :: (r ++ e)) := by
  cases cs with
  | nil => simp [json.scanFraction] at h
  | cons x r0 =>
    simp only [json.scanFraction, List.cons_append] at h ⊢
    by_cases hx : (x == '.') = true
    · rw [if_pos hx] at h ⊢
      cases r0 with
      | nil => simp at h
      | cons d r2 =>
        simp only [List.cons_append] at h ⊢
        by_cases hd : d.isDigit = true
        · simp only [hd, if_true] at h ⊢
          cases hsd : json.skipDigits r2 with
          | nil =>
            rw [hsd] at h
            simp [json.scanExponent] at h
          | cons y r3 =>
            rw [hsd] at h
            rw [skipDigits_append r2 e y r3 hsd]
            exact scanExponent_append (y :: r3) e c r h
        · simp [hd] at h
    · rw [if_neg hx] at h ⊢
      exact scanExponent_append (x :: r0) e c r h

theorem scanNumber_append (cs e : List Char) (c : Char) (r : List Char)
    (h : json.scanNumber cs = some (c :: r)) :
    json.scanNumber (cs ++ e) = some (c :: (r ++ e)) := by
  have key : ∀ ds : List Char,
      (match ds with
        | [] => none
        | d :: r0 =>
          if d == '0' then json.scanFraction r0
          else if '1' ≤ d ∧ d ≤ '9' then json.scanFraction (json.skipDigits r0)
          else none) = some (c :: r) →
      (match ds ++ e with
        | [] => none
        | d :: r0 =>
          if d == '0' then json.scanFraction r0
          else if '1' ≤ d ∧ d ≤ '9' then json.scanFraction (json.skipDigits r0)
          else none) = some (c :: (r ++ e)) := by
    intro ds hds
    cases ds with
    | nil => simp at hds
    | cons d r0 =>
      simp only [List.cons_append] at hds ⊢
      by_cases h0 : (d == '0') = true
      · rw [if_pos h0] at hds ⊢
        exact scanFraction_append r0 e c r hds
      · rw [if_neg h0] at hds ⊢
        by_cases h1 : '1' ≤ d ∧ d ≤ '9'
        · rw [if_pos h1] at hds ⊢
          cases hsd : json.skipDigits r0 with
          | nil =>
            rw [hsd] at hds
            simp [json.scanFraction] at hds
          | cons y r3 =>
            rw [hsd] at hds
            rw [skipDigits_append r0 e y r3 hsd]
            exact scanFraction_append (y :: r3) e c r hds
        · rw [if_neg h1] at hds
          simp at hds
  cases cs with
  | nil => simp [json.scanNumber] at h
  | cons x r0 =>
    simp only [json.scanNumber, List.cons_append] at h ⊢
    by_cases hx : (x == '-') = true
    · simp only [hx, if_true] at h ⊢
      exact key r0 h
    · simp only [hx, if_false, Bool.false_eq_true] at h ⊢
      exact key (x :: r0) h

theorem skipSpace_append_of_ne_nil (cs e : List Char) (h : json.skipSpace cs ≠ []) :
    json.skipSpace (cs ++ e) = json.skipSpace cs ++ e := by
  cases hs : json.skipSpace cs with
  | nil => exact absurd hs h
  | cons c r => rw [skipSpace_append cs e c r hs]; rfl

theorem skipValue_nil (f d : Nat) : json.skipValue f d [] = none := by
  cases f <;> simp [json.skipValue]

theorem skipMembers_nil (f d : Nat) : json.skipMembers f d [] = none := by
  cases f <;> simp [json.skipMembers]

theorem skipElements_nil (f d : Nat) : json.skipElements f d [] = none := by
  cases f <;> simp [json.skipElements, skipValue_nil]

theorem skip_append (f : Nat) :
    (∀ d cs e c r f1, f ≤ f1 → json.skipValue f d cs = some (c :: r) →
      json.skipValue f1 d (cs ++ e) = some (c :: (r ++ e))) ∧
    (∀ d cs e r f1, f ≤ f1 → json.skipMembers f d cs = some r →
      json.skipMembers f1 d (cs ++ e) = some (r ++ e)) ∧
    (∀ d cs e r f1, f ≤ f1 → json.skipElements f d cs = some r →
      json.skipElements f1 d (cs ++ e) = some (r ++ e)) := by
  induction f with
  | zero =>
    refine ⟨?_, ?_, ?_⟩
    · intro d cs e c r f1 _ h; simp [json.skipValue] at h
    · intro d cs e r f1 _ h; simp [json.skipMembers] at h
    · intro d cs e r f1 _ h; simp [json.skipElements] at h
  | succ n ih =>
    obtain ⟨ihV, ihM, ihE⟩ := ih
    refine ⟨?_, ?_, ?_⟩
    · intro d cs e c r f1 hf h
      obtain ⟨m, rfl⟩ : ∃ m, f1 = m + 1 := ⟨f1 - 1, by omega⟩
      have hnm : n ≤ m := by omega
      cases cs with
      | nil => simp [json.skipValue] at h
      | cons x rest =>
        simp only [json.skipValue, List.cons_append] at h ⊢
        by_cases h1 : (x == '\x7b') = true
        · simp only [h1, if_true] at h ⊢
          by_cases hd : d ≥ json.maxNestingDepth
          · simp [hd] at h
          · simp only [hd, if_false] at h ⊢
            cases hs : json.skipSpace rest with
            | nil => rw [hs] at h; simp at h
            | cons c1 rest1 =>
              rw [hs] at h
              rw [skipSpace_append rest e c1 rest1 hs]
              simp only at h ⊢
              by_cases hc : (c1 == '\x7d') = true
              · simp only [hc, if_true, Option.some.injEq] at h ⊢
                rw [h]; rfl
              · simp only [hc, if_false, Bool.false_eq_true] at h ⊢
                have := ihM (d + 1) (c1 :: rest1) e (c :: r) m hnm h
                simpa using this
        · simp only [h1, if_false, Bool.false_eq_true] at h ⊢
          by_cases h2 : (x == '[') = true
          · simp only [h2, if_true] at h ⊢
            by_cases hd : d ≥ json.maxNestingDepth
            · simp [hd] at h
            · simp only [hd, if_false] at h ⊢
              cases hs : json.skipSpace rest with
              | nil => rw [hs] at h; simp at h
              | cons c1 rest1 =>
                rw [hs] at h
                rw [skipSpace_append rest e c1 rest1 hs]
                simp only at h ⊢
                by_cases hc : (c1 == ']') = true
                · simp only [hc, if_true, Option.some.injEq] at h ⊢
                  rw [h]; rfl
                · simp only [hc, if_false, Bool.false_eq_true] at h ⊢
                  have := ihE (d + 1) (c1 :: rest1) e (c :: r) m hnm h
                  simpa using this
          · simp only [h2, if_false, Bool.false_eq_true] at h ⊢
            by_cases h3 : (x == '"') = true
            · simp only [h3, if_true] at h ⊢
              cases hss : json.scanString none [] rest with
              | none => rw [hss] at h; simp at h
              | some p =>
                obtain ⟨s0, r0⟩ := p
                rw [hss] at h
                rw [scanString_append none [] rest e s0 r0 hss]
                simp only [Option.map_some', Option.some.injEq] at h ⊢
                rw [h]; rfl
            · simp only [h3, if_false, Bool.false_eq_true] at h ⊢
              by_cases h4 : (x == 't') = true
              · simp only [h4, if_true] at h ⊢
                split at h
                · simp only [Option.some.injEq] at h
                  subst h
                  rfl
                · simp at h
              · simp only [h4, if_false, Bool.false_eq_true] at h ⊢
                by_cases h5 : (x == 'f') = true
                · simp only [h5, if_true] at h ⊢
                  split at h
                  · simp only [Option.some.injEq] at h
                    subst h
                    rfl
                  · simp at h
                · simp only [h5, if_false, Bool.false_eq_true] at h ⊢
                  by_cases h6 : (x == 'n') = true
                  · simp only [h6, if_true] at h ⊢
                    split at h
                    · simp only [Option.some.injEq] at h
                      subst h
                      rfl
                    · simp at h
                  · simp only [h6, if_false, Bool.false_eq_true] at h ⊢
                    have := scanNumber_append (x :: rest) e c r h
                    simpa using this
    · intro d cs e r f1 hf h
      obtain ⟨m, rfl⟩ : ∃ m, f1 = m + 1 := ⟨f1 - 1, by omega⟩
      have hnm : n ≤ m := by omega
      cases cs with
      | nil => simp [json.skipMembers] at h
      | cons x rest =>
        simp only [json.skipMembers, List.cons_append] at h ⊢
        by_cases h1 : (x == '"') = true
        · simp only [h1, if_true] at h ⊢
          cases hss : json.scanString none [] rest with
          | none => rw [hss] at h; simp at h
          | some p =>
            obtain ⟨s0, r1⟩ := p
            rw [hss] at h
            rw [scanString_append none [] rest e s0 r1 hss]
            simp only at h ⊢
            cases hs1 : json.skipSpace r1 with
            | nil => rw [hs1] at h; simp at h
            | cons c2 r2 =>
              rw [hs1] at h
              rw [skipSpace_append r1 e c2 r2 hs1]
              simp only at h ⊢
              by_cases h2 : (c2 == ':') = true
              · simp only [h2, if_true] at h ⊢
                cases hv : json.skipValue n d (json.skipSpace r2) with
                | none => rw [hv] at h; simp at h
                | some r3 =>
                  rw [hv] at h
                  simp only at h
                  cases hs3 : json.skipSpace r3 with
                  | nil => rw [hs3] at h; simp at h
                  | cons c4 r4 =>
                    rw [hs3] at h
                    simp only at h
                    have hr2 : json.skipSpace r2 ≠ [] := by
                      intro h0
                      rw [h0, skipValue_nil] at hv
                      simp at hv
                    have hr3 : ∃ c3 r3t, r3 = c3 :: r3t := by
                      cases r3 with
                      | nil => simp [json.skipSpace] at hs3
                      | cons c3 r3t => exact ⟨c3, r3t, rfl⟩
                    obtain ⟨c3, r3t, rfl⟩ := hr3
                    rw [skipSpace_append_of_ne_nil r2 e hr2]
                    rw [ihV d (json.skipSpace r2) e c3 r3t m hnm hv]
                    simp only
                    have hs3e := skipSpace_append (c3 :: r3t) e c4 r4 hs3
                    rw [List.cons_append] at hs3e
                    rw [hs3e]
                    simp only
                    by_cases h4 : (c4 == ',') = true
                    · simp only [h4, if_true] at h ⊢
                      have hr4 : json.skipSpace r4 ≠ [] := by
                        intro h0
                        rw [h0, skipMembers_nil] at h
                        simp at h
                      rw [skipSpace_append_of_ne_nil r4 e hr4]
                      exact ihM d (json.skipSpace r4) e r m hnm h
                    · simp only [h4, if_false, Bool.false_eq_true] at h ⊢
                      by_cases h5 : (c4 == '\x7d') = true
                      · simp only [h5, if_true, Option.some.injEq] at h ⊢
                        rw [h]
                      · simp [h5] at h
              · simp [h2] at h
        · simp [h1] at h
    · intro d cs e r f1 hf h
      obtain ⟨m, rfl⟩ : ∃ m, f1 = m + 1 := ⟨f1 - 1, by omega⟩
      have hnm : n ≤ m := by omega
      simp only [json.skipElements] at h ⊢
      cases hv : json.skipValue n d cs with
      | none => rw [hv] at h; simp at h
      | some r3 =>
        rw [hv] at h
        simp only at h
        cases hs3 : json.skipSpace r3 with
        | nil => rw [hs3] at h; simp at h
        | cons c4 r4 =>
          rw [hs3] at h
          simp only at h
          have hr3 : ∃ c3 r3t, r3 = c3 :: r3t := by
            cases r3 with
            | nil => simp [json.skipSpace] at hs3
            | cons c3 r3t => exact ⟨c3, r3t, rfl⟩
          obtain ⟨c3, r3t, rfl⟩ := hr3
          rw [ihV d cs e c3 r3t m hnm hv]
          simp only
          have hs3e := skipSpace_append (c3 :: r3t) e c4 r4 hs3
          rw [List.cons_append] at hs3e
          rw [hs3e]
          simp only
          by_cases h4 : (c4 == ',') = true
          · simp only [h4, if_true] at h ⊢
            have hr4 : json.skipSpace r4 ≠ [] := by
              intro h0
              rw [h0, skipElements_nil] at h
              simp at h
            rw [skipSpace_append_of_ne_nil r4 e hr4]
            exact ihE d (json.skipSpace r4) e r m hnm h
          · simp only [h4, if_false, Bool.false_eq_true] at h ⊢
            by_cases h5 : (c4 == ']') = true
            · simp only [h5, if_true, Option.some.injEq] at h ⊢
              rw [h]
            · simp [h5] at h

theorem readMember_append (f f1 : Nat) (cs e : List Char) (v : json.Member) (c : Char)
    (r : List Char) (hf : f ≤ f1) (h : json.readMember f cs = some (v, c :: r)) :
    json.readMember f1 (cs ++ e) = some (v, c :: (r ++ e)) := by
  cases cs with
  | nil => simp [json.readMember] at h
  | cons x rest =>
    simp only [json.readMember, List.cons_append] at h ⊢
    by_cases h1 : (x == '"') = true
    · simp only [h1, if_true] at h ⊢
      cases hss : json.scanString none [] rest with
      | none => rw [hss] at h; simp at h
      | some p =>
        obtain ⟨s0, r0⟩ := p
        rw [hss] at h
        rw [scanString_append none [] rest e s0 r0 hss]
        simp only [Option.map_some', Option.some.injEq, Prod.mk.injEq] at h ⊢
        exact ⟨h.1, by rw [h.2]; rfl⟩
    · simp only [h1, if_false, Bool.false_eq_true] at h ⊢
      by_cases h2 : (x == 'n') = true
      · simp only [h2, if_true] at h ⊢
        split at h
        · simp only [Option.some.injEq, Prod.mk.injEq] at h
          obtain ⟨hv, hr⟩ := h
          subst hv hr
          rfl
        · simp at h
      · simp only [h2, if_false, Bool.false_eq_true] at h ⊢
        cases hv : json.skipValue f 1 (x :: rest) with
        | none => rw [hv] at h; simp at h
        | some r3 =>
          rw [hv] at h
          simp only [Option.map_some', Option.some.injEq, Prod.mk.injEq] at h
          obtain ⟨hk, hr⟩ := h
          subst hr
          have := (skip_append f).1 1 (x :: rest) e c r f1 hf hv
          rw [List.cons_append] at this
          rw [this]
          simp [hk]

theorem readMembers_nil (f : Nat) : json.readMembers f [] = none := by
  cases f <;> simp [json.readMembers]

theorem readMember_nil (f : Nat) : json.readMember f [] = none := by
  simp [json.readMember]

theorem readMembers_append (f : Nat) :
    ∀ (f1 : Nat) (cs e : List Char) (ms : List (String × json.Member)) (r : List Char),
      f ≤ f1 → json.readMembers f cs = some (ms, r) →
      json.readMembers f1 (cs ++ e) = some (ms, r ++ e) := by
  induction f with
  | zero => intro f1 cs e ms r _ h; simp [json.readMembers] at h
  | succ n ih =>
    intro f1 cs e ms r hf h
    obtain ⟨m, rfl⟩ : ∃ m, f1 = m + 1 := ⟨f1 - 1, by omega⟩
    have hnm : n ≤ m := by omega
    cases cs with
    | nil => simp [json.readMembers] at h
    | cons x rest =>
      simp only [json.readMembers, List.cons_append] at h ⊢
      by_cases h1 : (x == '"') = true
      · simp only [h1, if_true] at h ⊢
        cases hss : json.scanString none [] rest with
        | none => rw [hss] at h; simp at h
        | some p =>
          obtain ⟨key, r1⟩ := p
          rw [hss] at h
          rw [scanString_append none [] rest e key r1 hss]
          simp only at h ⊢
          cases hs1 : json.skipSpace r1 with
          | nil => rw [hs1] at h; simp at h
          | cons c2 r2 =>
            rw [hs1] at h
            rw [skipSpace_append r1 e c2 r2 hs1]
            simp only at h ⊢
            by_cases h2 : (c2 == ':') = true
            · simp only [h2, if_true] at h ⊢
              cases hv : json.readMember n (json.skipSpace r2) with
              | none => rw [hv] at h; simp at h
              | some q =>
                obtain ⟨v, r3⟩ := q
                rw [hv] at h
                simp only at h
                cases hs3 : json.skipSpace r3 with
                | nil => rw [hs3] at h; simp at h
                | cons c4 r4 =>
                  rw [hs3] at h
                  simp only at h
                  have hr2 : json.skipSpace r2 ≠ [] := by
                    intro h0
                    rw [h0, readMember_nil] at hv
                    simp at hv
                  have hr3 : ∃ c3 r3t, r3 = c3 :: r3t := by
                    cases r3 with
                    | nil => simp [json.skipSpace] at hs3
                    | cons c3 r3t => exact ⟨c3, r3t, rfl⟩
                  obtain ⟨c3, r3t, rfl⟩ := hr3
                  rw [skipSpace_append_of_ne_nil r2 e hr2]
                  rw [readMember_append n m (json.skipSpace r2) e v c3 r3t hnm hv]
                  simp only
                  have hs3e := skipSpace_append (c3 :: r3t) e c4 r4 hs3
                  rw [List.cons_append] at hs3e
                  rw [hs3e]
                  simp only
                  by_cases h4 : (c4 == ',') = true
                  · simp only [h4, if_true] at h ⊢
                    cases hrm : json.readMembers n (json.skipSpace r4) with
                    | none => rw [hrm] at h; simp at h
                    | some q2 =>
                      obtain ⟨ms2, r5⟩ := q2
                      rw [hrm] at h
                      simp only [Option.some.injEq, Prod.mk.injEq] at h
                      have hr4 : json.skipSpace r4 ≠ [] := by
                        intro h0
                        rw [h0, readMembers_nil] at hrm
                        simp at hrm
                      rw [skipSpace_append_of_ne_nil r4 e hr4]
                      rw [ih m (json.skipSpace r4) e ms2 r5 hnm hrm]
                      simp only [Option.some.injEq, Prod.mk.injEq]
                      exact ⟨h.1, by rw [h.2]⟩
                  · simp only [h4, if_false, Bool.false_eq_true] at h ⊢
                    by_cases h5 : (c4 == '\x7d') = true
                    · simp only [h5, if_true, Option.some.injEq, Prod.mk.injEq] at h ⊢
                      exact ⟨h.1, by rw [h.2]⟩
                    · simp [h5] at h
            · simp [h2] at h
      · simp [h1] at h

/-- What follows a top-level object is not read: when the first value of the input is an
object, appending anything to the input gives the same object, with the addition left
unread. -/
theorem readValue_object_append (cs e : List Char) (ms : List (String × json.Member))
    (r : List Char) (h : json.readValue cs = some (json.Top.object ms, r)) :
    json.readValue (cs ++ e) = some (json.Top.object ms, r ++ e) := by
  unfold json.readValue json.readValueFuel at h ⊢
  cases hs : json.skipSpace cs with
  | nil => rw [hs] at h; simp at h
  | cons c rest =>
    rw [hs] at h
    rw [skipSpace_append cs e c rest hs]
    simp only at h ⊢
    by_cases h1 : (c == '\x7b') = true
    · simp only [h1, if_true] at h ⊢
      cases hs1 : json.skipSpace rest with
      | nil => rw [hs1] at h; simp at h
      | cons c1 rest1 =>
        rw [hs1] at h
        rw [skipSpace_append rest e c1 rest1 hs1]
        simp only at h ⊢
        by_cases h2 : (c1 == '\x7d') = true
        · simp only [h2, if_true, Option.some.injEq, Prod.mk.injEq] at h ⊢
          exact ⟨h.1, by rw [h.2]⟩
        · simp only [h2, if_false, Bool.false_eq_true] at h ⊢
          cases hrm : json.readMembers (2 * cs.length + 2) (c1 :: rest1) with
          | none => rw [hrm] at h; simp at h
          | some q =>
            obtain ⟨ms2, r2⟩ := q
            rw [hrm] at h
            have := readMembers_append (2 * cs.length + 2) (2 * (cs ++ e).length + 2)
              (c1 :: rest1) e ms2 r2 (by simp) hrm
            rw [List.cons_append] at this
            rw [this]
            simp only [Option.map_some', Option.some.injEq, Prod.mk.injEq] at h ⊢
            exact ⟨h.1, by rw [h.2]⟩
    · simp only [h1, if_false, Bool.false_eq_true] at h ⊢
      by_cases h2 : (c == 'n') = true
      · simp only [h2, if_true] at h
        split at h <;> simp at h
      · simp only [h2, if_false, Bool.false_eq_true] at h
        cases hv : json.skipValue (2 * cs.length + 2) 0 (c :: rest) with
        | none => rw [hv] at h; simp at h
        | some r3 => rw [hv] at h; simp at h

/-- A body whose first JSON value is an object decodes to the same result whatever is
appended to it. -/
theorem Decode_object_append (body extra : String) (ms : List (String × json.Member))
    (r : List Char) (h : json.readValue body.toList = some (json.Top.object ms, r)) :
    json.Decode (body ++ extra) = json.Decode body := by
  have h2 := readValue_object_append body.toList extra.toList ms r h
  have ht : (body ++ extra).toList = body.toList ++ extra.toList := String.data_append body extra
  unfold json.Decode
  rw [ht, h, h2]

/-! ## The decoder: the bound on the recursion is never reached -/

theorem skipSpace_length (cs : List Char) : (json.skipSpace cs).length ≤ cs.length := by
  induction cs with
  | nil => simp [json.skipSpace]
  | cons a cs ih =>
    simp only [json.skipSpace]
    split
    · simp only [List.length_cons]; omega
    · simp

theorem skipDigits_length (cs : List Char) : (json.skipDigits cs).length ≤ cs.length := by
  induction cs with
  | nil => simp [json.skipDigits]
  | cons a cs ih =>
    simp only [json.skipDigits]
    split
    · simp only [List.length_cons]; omega
    · simp

theorem scanString_length (hi : Option Nat) (acc cs : List Char) (s : String) (r : List Char)
    (h : json.scanString hi acc cs = some (s, r)) : r.length < cs.length := by
  induction hi, acc, cs using json.scanString.induct with
  | case1 hi acc => simp [json.scanString.eq_def] at h
  | case2 hi acc c cs hc =>
    rw [json.scanString.eq_def] at h
    simp only [hc, if_true, Option.some.injEq, Prod.mk.injEq] at h
    rw [← h.2]; simp
  | case3 hi acc c h1 h2 =>
    rw [json.scanString.eq_def] at h
    simp [h1, h2] at h
  | case4 hi acc c h1 h2 c1 h3 a b c1 d rest2 hg =>
    rw [json.scanString.eq_def] at h
    simp [h1, h2, h3, hg] at h
  | case5 hi acc c h1 h2 c1 h3 a b c1 d rest2 val hg hv ih =>
    rw [json.scanString.eq_def] at h
    simp only [h1, h2, h3, hg, hv, if_true, if_false, Bool.false_eq_true, and_self] at h
    have := ih h
    simp only [List.length_cons]; omega
  | case6 acc c h1 h2 c1 h3 a b c1 d rest2 val hg hv hl h0 ih =>
    rw [json.scanString.eq_def] at h
    simp only [h1, h2, h3, hg, hv, hl, if_true, if_false, Bool.false_eq_true, and_self] at h
    have := ih h
    simp only [List.length_cons]; omega
  | case7 acc c h1 h2 c1 h3 a b c1 d rest2 val hg hv hl ih =>
    rw [json.scanString.eq_def] at h
    simp only [h1, h2, h3, hg, hv, hl, if_true, if_false, Bool.false_eq_true, and_self] at h
    have := ih h
    simp only [List.length_cons]; omega
  | case8 hi acc c h1 h2 c1 h3 a b c1 d rest2 val hg hv hl ih =>
    rw [json.scanString.eq_def] at h
    simp only [h1, h2, h3, hg, hv, hl, if_true, if_false, Bool.false_eq_true, and_self] at h
    have := ih h
    simp only [List.length_cons]; omega
  | case9 hi acc c h1 h2 c1 cs h3 hshort =>
    rw [json.scanString.eq_def] at h
    simp only [h1, h2, h3, if_true, if_false, Bool.false_eq_true] at h
    exact absurd h (by simp)
  | case10 hi acc c h1 h2 c1 cs h3 ch hu ih =>
    rw [json.scanString.eq_def] at h
    simp only [h1, h2, h3, hu, if_true, if_false, Bool.false_eq_true] at h
    have := ih h
    simp only [List.length_cons]; omega
  | case11 hi acc c h1 h2 c1 cs h3 hu =>
    rw [json.scanString.eq_def] at h
    simp [h1, h2, h3, hu] at h
  | case12 hi acc c cs h1 h2 h3 =>
    rw [json.scanString.eq_def] at h
    simp [h1, h2, h3] at h
  | case13 hi acc c cs h1 h2 h3 ih =>
    rw [json.scanString.eq_def] at h
    simp only [h1, h2, h3, if_true, if_false, Bool.false_eq_true] at h
    have := ih h
    simp only [List.length_cons]; omega

theorem scanExponent_length (cs r : List Char) (h : json.scanExponent cs = some r) :
    r.length ≤ cs.length := by
  cases cs with
  | nil => simp [json.scanExponent] at h; simp [h]
  | cons x r0 =>
    simp only [json.scanExponent] at h
    by_cases hx : (x == 'e' || x == 'E') = true
    · rw [if_pos hx] at h
      cases r0 with
      | nil => simp at h
      | cons s r2 =>
        by_cases hs : (s == '+' || s == '-') = true
        · simp only [hs, if_true] at h
          cases r2 with
          | nil => simp at h
          | cons d r3 =>
            by_cases hd : d.isDigit = true
            · simp only [hd, if_true, Option.some.injEq] at h
              have := skipDigits_length r3
              rw [← h]; simp only [List.length_cons]; omega
            · simp [hd] at h
        · simp only [hs, if_false, Bool.false_eq_true] at h
          by_cases hd : s.isDigit = true
          · simp only [hd, if_true, Option.some.injEq] at h
            have := skipDigits_length r2
            rw [← h]; simp only [List.length_cons]; omega
          · simp [hd] at h
    · rw [if_neg hx] at h
      simp only [Option.some.injEq] at h
      rw [← h]

theorem scanFraction_length (cs r : List Char) (h : json.scanFraction cs = some r) :
    r.length ≤ cs.length := by
  cases cs with
  | nil => simp [json.scanFraction] at h; simp [h]
  | cons x r0 =>
    simp only [json.scanFraction] at h
    by_cases hx : (x == '.') = true
    · rw [if_pos hx] at h
      cases r0 with
      | nil => simp at h
      | cons d r2 =>
        by_cases hd : d.isDigit = true
        · simp only [hd, if_true] at h
          have h1 := scanExponent_length _ _ h
          have h2 := skipDigits_length r2
          simp only [List.length_cons]; omega
        · simp [hd] at h
    · rw [if_neg hx] at h
      exact scanExponent_length _ _ h

theorem scanNumber_length (cs r : List Char) (h : json.scanNumber cs = some r) :
    r.length < cs.length := by
  have key : ∀ ds : List Char,
      (match ds with
        | [] => none
        | d :: r0 =>
          if d == '0' then json.scanFraction r0
          else if '1' ≤ d ∧ d ≤ '9' then json.scanFraction (json.skipDigits r0)
          else none) = some r → r.length < ds.length := by
    intro ds hds
    cases ds with
    | nil => simp at hds
    | cons d r0 =>
      simp only at hds
      by_cases h0 : (d == '0') = true
      · rw [if_pos h0] at hds
        have := scanFraction_length _ _ hds
        simp only [List.length_cons]; omega
      · rw [if_neg h0] at hds
        by_cases h1 : '1' ≤ d ∧ d ≤ '9'
        · rw [if_pos h1] at hds
          have h2 := scanFraction_length _ _ hds
          have h3 := skipDigits_length r0
          simp only [List.length_cons]; omega
        · rw [if_neg h1] at hds
          simp at hds
  cases cs with
  | nil => simp [json.scanNumber] at h
  | cons x r0 =>
    simp only [json.scanNumber] at h
    by_cases hx : (x == '-') = true
    · simp only [hx, if_true] at h
      have := key r0 h
      simp only [List.length_cons]; omega
    · simp only [hx, if_false, Bool.false_eq_true] at h
      exact key (x :: r0) h


theorem skip_length (f : Nat) :
    (∀ d cs r, json.skipValue f d cs = some r → r.length < cs.length) ∧
    (∀ d cs r, json.skipMembers f d cs = some r → r.length < cs.length) ∧
    (∀ d cs r, json.skipElements f d cs = some r → r.length < cs.length) := by
  induction f with
  | zero =>
    refine ⟨?_, ?_, ?_⟩
    · intro d cs r h; simp [json.skipValue] at h
    · intro d cs r h; simp [json.skipMembers] at h
    · intro d cs r h; simp [json.skipElements] at h
  | succ n ih =>
    obtain ⟨ihV, ihM, ihE⟩ := ih
    refine ⟨?_, ?_, ?_⟩
    · intro d cs r h
      cases cs with
      | nil => simp [json.skipValue] at h
      | cons x rest =>
        simp only [json.skipValue] at h
        simp only [List.length_cons]
        by_cases h1 : (x == '\x7b') = true
        · simp only [h1, if_true] at h
          by_cases hd : d ≥ json.maxNestingDepth
          · simp [hd] at h
          · simp only [hd, if_false] at h
            have hl := skipSpace_length rest
            cases hs : json.skipSpace rest with
            | nil => rw [hs] at h; simp at h
            | cons c1 rest1 =>
              rw [hs] at h hl
              simp only at h
              simp only [List.length_cons] at hl
              by_cases hc : (c1 == '\x7d') = true
              · simp only [hc, if_true, Option.some.injEq] at h
                rw [← h]; omega
              · simp only [hc, if_false, Bool.false_eq_true] at h
                have := ihM _ _ _ h
                simp only [List.length_cons] at this
                omega
        · simp only [h1, if_false, Bool.false_eq_true] at h
          by_cases h2 : (x == '[') = true
          · simp only [h2, if_true] at h
            by_cases hd : d ≥ json.maxNestingDepth
            · simp [hd] at h
            · simp only [hd, if_false] at h
              have hl := skipSpace_length rest
              cases hs : json.skipSpace rest with
              | nil => rw [hs] at h; simp at h
              | cons c1 rest1 =>
                rw [hs] at h hl
                simp only at h
                simp only [List.length_cons] at hl
                by_cases hc : (c1 == ']') = true
                · simp only [hc, if_true, Option.some.injEq] at h
                  rw [← h]; omega
                · simp only [hc, if_false, Bool.false_eq_true] at h
                  have := ihE _ _ _ h
                  simp only [List.length_cons] at this
                  omega
          · simp only [h2, if_false, Bool.false_eq_true] at h
            by_cases h3 : (x == '"') = true
            · simp only [h3, if_true] at h
              cases hss : json.scanString none [] rest with
              | none => rw [hss] at h; simp at h
              | some p =>
                obtain ⟨s0, r0⟩ := p
                rw [hss] at h
                simp only [Option.map_some', Option.some.injEq] at h
                have := scanString_length _ _ _ _ _ hss
                rw [← h]; omega
            · simp only [h3, if_false, Bool.false_eq_true] at h
              by_cases h4 : (x == 't') = true
              · simp only [h4, if_true] at h
                split at h
                · simp only [Option.some.injEq] at h
                  subst h
                  simp only [List.length_cons]; omega
                · simp at h
              · simp only [h4, if_false, Bool.false_eq_true] at h
                by_cases h5 : (x == 'f') = true
                · simp only [h5, if_true] at h
                  split at h
                  · simp only [Option.some.injEq] at h
                    subst h
                    simp only [List.length_cons]; omega
                  · simp at h
                · simp only [h5, if_false, Bool.false_eq_true] at h
                  by_cases h6 : (x == 'n') = true
                  · simp only [h6, if_true] at h
                    split at h
                    · simp only [Option.some.injEq] at h
                      subst h
                      simp only [List.length_cons]; omega
                    · simp at h
                  · simp only [h6, if_false, Bool.false_eq_true] at h
                    have := scanNumber_length _ _ h
                    simpa using this
    · intro d cs r h
      cases cs with
      | nil => simp [json.skipMembers] at h
      | cons x rest =>
        simp only [json.skipMembers] at h
        simp only [List.length_cons]
        by_cases h1 : (x == '"') = true
        · simp only [h1, if_true] at h
          cases hss : json.scanString none [] rest with
          | none => rw [hss] at h; simp at h
          | some p =>
            obtain ⟨s0, r1⟩ := p
            rw [hss] at h
            simp only at h
            have l1 := scanString_length _ _ _ _ _ hss
            have l2 := skipSpace_length r1
            cases hs1 : json.skipSpace r1 with
            | nil => rw [hs1] at h; simp at h
            | cons c2 r2 =>
              rw [hs1] at h l2
              simp only at h
              simp only [List.length_cons] at l2
              by_cases h2 : (c2 == ':') = true
              · simp only [h2, if_true] at h
                have l3 := skipSpace_length r2
                cases hv : json.skipValue n d (json.skipSpace r2) with
                | none => rw [hv] at h; simp at h
                | some r3 =>
                  rw [hv] at h
                  simp only at h
                  have l4 := ihV _ _ _ hv
                  have l5 := skipSpace_length r3
                  cases hs3 : json.skipSpace r3 with
                  | nil => rw [hs3] at h; simp at h
                  | cons c4 r4 =>
                    rw [hs3] at h l5
                    simp only at h
                    simp only [List.length_cons] at l5
                    by_cases h4 : (c4 == ',') = true
                    · simp only [h4, if_true] at h
                      have l6 := ihM _ _ _ h
                      have l7 := skipSpace_length r4
                      omega
                    · simp only [h4, if_false, Bool.false_eq_true] at h
                      by_cases h5 : (c4 == '\x7d') = true
                      · simp only [h5, if_true, Option.some.injEq] at h
                        rw [← h]; omega
                      · simp [h5] at h
              · simp [h2] at h
        · simp [h1] at h
    · intro d cs r h
      simp only [json.skipElements] at h
      cases hv : json.skipValue n d cs with
      | none => rw [hv] at h; simp at h
      | some r3 =>
        rw [hv] at h
        simp only at h
        have l4 := ihV _ _ _ hv
        have l5 := skipSpace_length r3
        cases hs3 : json.skipSpace r3 with
        | nil => rw [hs3] at h; simp at h
        | cons c4 r4 =>
          rw [hs3] at h l5
          simp only at h
          simp only [List.length_cons] at l5
          by_cases h4 : (c4 == ',') = true
          · simp only [h4, if_true] at h
            have l6 := ihE _ _ _ h
            have l7 := skipSpace_length r4
            omega
          · simp only [h4, if_false, Bool.false_eq_true] at h
            by_cases h5 : (c4 == ']') = true
            · simp only [h5, if_true, Option.some.injEq] at h
              rw [← h]; omega
            · simp [h5] at h

/-- The bound on the recursion is never the reason for a refusal: with at least twice the
length of the input plus two, the scanners give the same result whatever the bound. -/
theorem skip_fuel (n : Nat) :
    ∀ cs : List Char, cs.length ≤ n → ∀ d f1 f2,
      (2 * cs.length + 1 ≤ f1 → 2 * cs.length + 1 ≤ f2 →
        json.skipValue f1 d cs = json.skipValue f2 d cs) ∧
      (2 * cs.length + 1 ≤ f1 → 2 * cs.length + 1 ≤ f2 →
        json.skipMembers f1 d cs = json.skipMembers f2 d cs) ∧
      (2 * cs.length + 2 ≤ f1 → 2 * cs.length + 2 ≤ f2 →
        json.skipElements f1 d cs = json.skipElements f2 d cs) := by
  induction n with
  | zero =>
    intro cs hlen d f1 f2
    have : cs = [] := List.length_eq_zero.mp (by omega)
    subst this
    simp [skipValue_nil, skipMembers_nil, skipElements_nil]
  | succ n ih =>
    intro cs hlen d f1 f2
    cases cs with
    | nil => simp [skipValue_nil, skipMembers_nil, skipElements_nil]
    | cons x rest =>
      simp only [List.length_cons] at hlen ⊢
      have hrest : rest.length ≤ n := by omega
      have hV : ∀ d f1 f2, 2 * (rest.length + 1) + 1 ≤ f1 → 2 * (rest.length + 1) + 1 ≤ f2 →
          json.skipValue f1 d (x :: rest) = json.skipValue f2 d (x :: rest) := by
        intro d f1 f2 b1 b2
        obtain ⟨a, rfl⟩ : ∃ a, f1 = a + 1 := ⟨f1 - 1, by omega⟩
        obtain ⟨b, rfl⟩ : ∃ b, f2 = b + 1 := ⟨f2 - 1, by omega⟩
        simp only [json.skipValue]
        have hl := skipSpace_length rest
        cases hs : json.skipSpace rest with
        | nil => simp
        | cons c1 rest1 =>
          rw [hs] at hl
          simp only [List.length_cons] at hl
          have e1 := (ih (c1 :: rest1) (by simp only [List.length_cons]; omega) (d + 1) a b).2.1
            (by simp only [List.length_cons]; omega) (by simp only [List.length_cons]; omega)
          have e2 := (ih (c1 :: rest1) (by simp only [List.length_cons]; omega) (d + 1) a b).2.2
            (by simp only [List.length_cons]; omega) (by simp only [List.length_cons]; omega)
          simp only [e1, e2]
      refine ⟨hV d f1 f2, ?_, ?_⟩
      · intro b1 b2
        obtain ⟨a, rfl⟩ : ∃ a, f1 = a + 1 := ⟨f1 - 1, by omega⟩
        obtain ⟨b, rfl⟩ : ∃ b, f2 = b + 1 := ⟨f2 - 1, by omega⟩
        simp only [json.skipMembers]
        by_cases h1 : (x == '"') = true
        · simp only [h1, if_true]
          cases hss : json.scanString none [] rest with
          | none => rfl
          | some p =>
            obtain ⟨s0, r1⟩ := p
            simp only
            have l1 := scanString_length _ _ _ _ _ hss
            have l2 := skipSpace_length r1
            cases hs1 : json.skipSpace r1 with
            | nil => rfl
            | cons c2 r2 =>
              rw [hs1] at l2
              simp only [List.length_cons] at l2
              simp only
              by_cases h2 : (c2 == ':') = true
              · simp only [h2, if_true]
                have l3 := skipSpace_length r2
                have e1 := (ih (json.skipSpace r2) (by omega) d a b).1 (by omega) (by omega)
                rw [e1]
                cases hv : json.skipValue b d (json.skipSpace r2) with
                | none => rfl
                | some r3 =>
                  simp only
                  have l4 := (skip_length b).1 _ _ _ hv
                  have l5 := skipSpace_length r3
                  cases hs3 : json.skipSpace r3 with
                  | nil => rfl
                  | cons c4 r4 =>
                    rw [hs3] at l5
                    simp only [List.length_cons] at l5
                    simp only
                    have l7 := skipSpace_length r4
                    have e2 := (ih (json.skipSpace r4) (by omega) d a b).2.1 (by omega) (by omega)
                    rw [e2]
              · simp [h2]
        · simp [h1]
      · intro b1 b2
        obtain ⟨a, rfl⟩ : ∃ a, f1 = a + 1 := ⟨f1 - 1, by omega⟩
        obtain ⟨b, rfl⟩ : ∃ b, f2 = b + 1 := ⟨f2 - 1, by omega⟩
        simp only [json.skipElements]
        rw [hV d a b (by omega) (by omega)]
        cases hv : json.skipValue b d (x :: rest) with
        | none => rfl
        | some r3 =>
          simp only
          have l4 := (skip_length b).1 _ _ _ hv
          simp only [List.length_cons] at l4
          have l5 := skipSpace_length r3
          cases hs3 : json.skipSpace r3 with
          | nil => rfl
          | cons c4 r4 =>
            rw [hs3] at l5
            simp only [List.length_cons] at l5
            simp only
            have l7 := skipSpace_length r4
            have e2 := (ih (json.skipSpace r4) (by omega) d a b).2.2 (by omega) (by omega)
            rw [e2]

theorem readMember_length (f : Nat) (cs : List Char) (v : json.Member) (r : List Char)
    (h : json.readMember f cs = some (v, r)) : r.length < cs.length := by
  cases cs with
  | nil => simp [json.readMember] at h
  | cons x rest =>
    simp only [json.readMember] at h
    by_cases h1 : (x == '"') = true
    · simp only [h1, if_true] at h
      cases hss : json.scanString none [] rest with
      | none => rw [hss] at h; simp at h
      | some p =>
        obtain ⟨s0, r0⟩ := p
        rw [hss] at h
        simp only [Option.map_some', Option.some.injEq, Prod.mk.injEq] at h
        have := scanString_length _ _ _ _ _ hss
        rw [← h.2]; simp only [List.length_cons]; omega
    · simp only [h1, if_false, Bool.false_eq_true] at h
      by_cases h2 : (x == 'n') = true
      · simp only [h2, if_true] at h
        split at h
        · simp only [Option.some.injEq, Prod.mk.injEq] at h
          rw [← h.2]; simp only [List.length_cons]; omega
        · simp at h
      · simp only [h2, if_false, Bool.false_eq_true] at h
        cases hv : json.skipValue f 1 (x :: rest) with
        | none => rw [hv] at h; simp at h
        | some r3 =>
          rw [hv] at h
          simp only [Option.map_some', Option.some.injEq, Prod.mk.injEq] at h
          have := (skip_length f).1 _ _ _ hv
          rw [← h.2]; exact this

theorem readMember_fuel (f1 f2 : Nat) (cs : List Char)
    (b1 : 2 * cs.length + 1 ≤ f1) (b2 : 2 * cs.length + 1 ≤ f2) :
    json.readMember f1 cs = json.readMember f2 cs := by
  cases cs with
  | nil => simp [json.readMember]
  | cons x rest =>
    simp only [json.readMember]
    rw [(skip_fuel (x :: rest).length (x :: rest) (le_refl _) 1 f1 f2).1 b1 b2]

theorem readMembers_fuel (n : Nat) :
    ∀ cs : List Char, cs.length ≤ n → ∀ f1 f2,
      2 * cs.length + 1 ≤ f1 → 2 * cs.length + 1 ≤ f2 →
      json.readMembers f1 cs = json.readMembers f2 cs := by
  induction n with
  | zero =>
    intro cs hlen f1 f2 _ _
    have : cs = [] := List.length_eq_zero.mp (by omega)
    subst this
    simp [readMembers_nil]
  | succ n ih =>
    intro cs hlen f1 f2 b1 b2
    cases cs with
    | nil => simp [readMembers_nil]
    | cons x rest =>
      simp only [List.length_cons] at hlen b1 b2
      obtain ⟨a, rfl⟩ : ∃ a, f1 = a + 1 := ⟨f1 - 1, by omega⟩
      obtain ⟨b, rfl⟩ : ∃ b, f2 = b + 1 := ⟨f2 - 1, by omega⟩
      simp only [json.readMembers]
      by_cases h1 : (x == '"') = true
      · simp only [h1, if_true]
        cases hss : json.scanString none [] rest with
        | none => rfl
        | some p =>
          obtain ⟨key, r1⟩ := p
          simp only
          have l1 := scanString_length _ _ _ _ _ hss
          have l2 := skipSpace_length r1
          cases hs1 : json.skipSpace r1 with
          | nil => rfl
          | cons c2 r2 =>
            rw [hs1] at l2
            simp only [List.length_cons] at l2
            simp only
            by_cases h2 : (c2 == ':') = true
            · simp only [h2, if_true]
              have l3 := skipSpace_length r2
              rw [readMember_fuel a b (json.skipSpace r2) (by omega) (by omega)]
              cases hv : json.readMember b (json.skipSpace r2) with
              | none => rfl
              | some q =>
                obtain ⟨v, r3⟩ := q
                simp only
                have l4 := readMember_length _ _ _ _ hv
                have l5 := skipSpace_length r3
                cases hs3 : json.skipSpace r3 with
                | nil => rfl
                | cons c4 r4 =>
                  rw [hs3] at l5
                  simp only [List.length_cons] at l5
                  simp only
                  have l7 := skipSpace_length r4
                  rw [ih (json.skipSpace r4) (by omega) a b (by omega) (by omega)]
            · simp [h2]
      · simp [h1]

/-- The bound that `readValue` gives the scanners is never reached: any larger bound
gives the same result. -/
theorem readValueFuel_enough (cs : List Char) (f : Nat) (hf : 2 * cs.length + 2 ≤ f) :
    json.readValueFuel f cs = json.readValue cs := by
  unfold json.readValue json.readValueFuel
  have hl := skipSpace_length cs
  cases hs : json.skipSpace cs with
  | nil => rfl
  | cons c rest =>
    rw [hs] at hl
    simp only [List.length_cons] at hl
    simp only
    have hl2 := skipSpace_length rest
    have e1 := (skip_fuel (c :: rest).length (c :: rest) (le_refl _) 0 f
      (2 * cs.length + 2)).1 (by simp only [List.length_cons]; omega)
      (by simp only [List.length_cons]; omega)
    rw [e1]
    cases hs1 : json.skipSpace rest with
    | nil => rfl
    | cons c1 rest1 =>
      rw [hs1] at hl2
      simp only [List.length_cons] at hl2
      simp only
      rw [readMembers_fuel (c1 :: rest1).length (c1 :: rest1) (le_refl _) f
        (2 * cs.length + 2) (by simp only [List.length_cons]; omega)
        (by simp only [List.length_cons]; omega)]

/-! ## The decoder: which bodies are refused -/

theorem storeMember_error (st : BodyKirimPesan × Option String) (m : String × json.Member) :
    (json.storeMember st m).2.isSome = (st.2.isSome || json.wrongType m) := by
  unfold json.storeMember json.wrongType
  obtain ⟨key, v⟩ := m
  obtain ⟨req, e⟩ := st
  by_cases h1 : json.foldName key = ['N', 'O']
  · cases v <;> cases e <;> simp [h1, Option.orElse]
  · by_cases h2 : json.foldName key = ['P', 'E', 'S', 'A', 'N']
    · cases v <;> cases e <;> simp [h1, h2, Option.orElse]
    · simp [h1, h2]

theorem foldl_storeMember_error (ms : List (String × json.Member))
    (st : BodyKirimPesan × Option String) :
    (ms.foldl json.storeMember st).2.isSome = (st.2.isSome || ms.any json.wrongType) := by
  induction ms generalizing st with
  | nil => simp
  | cons m rest ih =>
    rw [List.foldl_cons, ih, storeMember_error, List.any_cons, Bool.or_assoc]

/-- `Decode` returns an error exactly for a refused body. -/
theorem Decode_error_iff (body : String) :
    (∃ err, json.Decode body = Except.error err) ↔ json.refused body = true := by
  unfold json.Decode json.refused
  cases hrv : json.readValue body.toList with
  | none => simp
  | some p =>
    obtain ⟨v, rest⟩ := p
    cases v with
    | null => simp [json.unmarshal]
    | other kind => simp [json.unmarshal]
    | object members =>
      have h := foldl_storeMember_error members (⟨"", ""⟩, none)
      simp only [json.unmarshal]
      cases hf : members.foldl json.storeMember (⟨"", ""⟩, none) with
      | mk req e =>
        rw [hf] at h
        cases e with
        | none =>
          have h2 : members.any json.wrongType = false := by simpa using h.symm
          simp [h2]
        | some err =>
          have h2 : members.any json.wrongType = true := by simpa using h.symm
          simp [h2]

/-! ## Message Dispatcher: `KirimPesan` -/

/-- C6: for every request whose method is not POST, whatever its body, the session and
the store: the reply is 405 with JSON status `"failed"`; the only effect is one log line
(the body is not read, no message is submitted, the store is not called, `db` and `wac`
keep their values); and the reply is the same for every body, world and environment, so
neither handle was read. -/
theorem KirimPesan_method_not_allowed (env : Env) (r : Request) (w : World)
    (hm : r.Method ≠ MethodPost) :
    KirimPesan env r w =
      ({ w with trace := w.trace ++
          [Event.log ("Metode " ++ r.Method ++ " tidak diizinkan di /kirim-pesan")] },
        Served.response
          { code := 405
            header := [("Content-Type", "application/json")]
            body := Body.json [("status", "failed"),
              ("message", "Metode " ++ r.Method ++ " tidak diizinkan")] }) ∧
    (∀ (env2 : Env) (body2 : String) (w2 : World),
      (KirimPesan env2 ⟨r.Method, body2⟩ w2).2 = (KirimPesan env r w).2) := by
  have h : ∀ (e : Env) (b : String) (v : World), KirimPesan e ⟨r.Method, b⟩ v =
      ({ v with trace := v.trace ++
          [Event.log ("Metode " ++ r.Method ++ " tidak diizinkan di /kirim-pesan")] },
        Served.response
          { code := 405
            header := [("Content-Type", "application/json")]
            body := Body.json [("status", "failed"),
              ("message", "Metode " ++ r.Method ++ " tidak diizinkan")] }) := by
    intro e b v
    simp [KirimPesan, hm, World.log, World.emit, balasanJSON, StatusMethodNotAllowed]
  have hr : r = ⟨r.Method, r.Body⟩ := rfl
  refine ⟨by rw [hr]; exact h env r.Body w, ?_⟩
  intro env2 body2 w2
  rw [h env2 body2 w2]
  rw [hr, h env r.Body w]

/-- C5: for every POST request whose body decodes and in which `No` or `Pesan` is the
empty string, with or without a session: the reply is 400 with
`{"status":"failed","message":"Nilai 'No' atau 'Pesan' tidak boleh kosong"}`, and the only
effect is that the body was read: no message is submitted and nothing is recorded. -/
theorem KirimPesan_empty_field (env : Env) (r : Request) (w : World)
    (request : BodyKirimPesan)
    (hpost : r.Method = MethodPost) (hdec : json.Decode r.Body = Except.ok request)
    (hempty : request.No = "" ∨ request.Pesan = "") :
    KirimPesan env r w =
      ({ w with trace := w.trace ++ [Event.readBody] },
        Served.response
          { code := 400
            header := [("Content-Type", "application/json")]
            body := Body.json [("status", "failed"),
              ("message", "Nilai 'No' atau 'Pesan' tidak boleh kosong")] }) := by
  simp [KirimPesan, hpost, hdec, hempty, World.emit, balasanJSON, StatusBadRequest]

/-- C7: for every well-formed request (POST, the body decodes, `No` and `Pesan` are not
empty), when `wac` is nil the reply is 500 with JSON status `"failed"`; the handler reads
the body and logs one line, and does nothing else: it calls neither `GetQRChannel` nor
`Connect`, submits no message, calls the store not at all, and leaves `wac` nil. -/
theorem KirimPesan_no_session (env : Env) (r : Request) (w : World)
    (request : BodyKirimPesan)
    (hpost : r.Method = MethodPost) (hdec : json.Decode r.Body = Except.ok request)
    (hno : request.No ≠ "") (hpesan : request.Pesan ≠ "") (hwac : w.wac = none) :
    KirimPesan env r w =
      ({ w with trace := w.trace ++ [Event.readBody, Event.log "WhatsApp belum terhubung"] },
        Served.response
          { code := 500
            header := [("Content-Type", "application/json")]
            body := Body.json [("status", "failed"),
              ("message", "WhatsApp belum terhubung")] }) ∧
    (KirimPesan env r w).1.wac = none ∧
    sessionCalls (KirimPesan env r w).1.trace = sessionCalls w.trace ∧
    submissions (KirimPesan env r w).1.trace = submissions w.trace ∧
    storeCalls (KirimPesan env r w).1.trace = storeCalls w.trace ∧
    (KirimPesan env r w).1.rows = w.rows := by
  have h : KirimPesan env r w =
      ({ w with trace := w.trace ++ [Event.readBody, Event.log "WhatsApp belum terhubung"] },
        Served.response
          { code := 500
            header := [("Content-Type", "application/json")]
            body := Body.json [("status", "failed"),
              ("message", "WhatsApp belum terhubung")] }) := by
    simp [KirimPesan, hpost, hdec, hno, hpesan, hwac, World.emit, World.log, balasanJSON,
      StatusInternalServerError]
  refine ⟨h, ?_⟩
  rw [h]
  simp [hwac, sessionCalls, submissions, storeCalls, List.filter_append, List.filter]

/-- C4: for every POST request whose body decodes to a request with non-empty `No` and
non-empty `Pesan`, when a session is present, the submission succeeds and recording is
disabled: the reply is 200 with the JSON object
`{"status":"success","message":"Pesan berhasil dikirim ke " ++ No}`; the message ends with
the destination identifier exactly as decoded. -/
theorem KirimPesan_success (env : Env) (r : Request) (w : World)
    (request : BodyKirimPesan) (client : Client)
    (hpost : r.Method = MethodPost) (hdec : json.Decode r.Body = Except.ok request)
    (hno : request.No ≠ "") (hpesan : request.Pesan ≠ "") (hwac : w.wac = some client)
    (hsend : env.SendMessage client ⟨request.No, DefaultUserServer⟩ request.Pesan = none)
    (hrec : w.db_save_number ≠ "yes") :
    (KirimPesan env r w).2 =
      Served.response
        { code := 200
          header := [("Content-Type", "application/json")]
          body := Body.json [("status", "success"),
            ("message", "Pesan berhasil dikirim ke " ++ request.No)] } := by
  simp [KirimPesan, hpost, hdec, hno, hpesan, hwac, hsend, hrec, World.emit, World.log,
    balasanJSON, StatusOK]

/-- The reply to a POST request on which `Decode` returns the error `err`. -/
theorem KirimPesan_decode_error_reply (env : Env) (r : Request) (w : World) (err : String)
    (hpost : r.Method = MethodPost) (hdec : json.Decode r.Body = Except.error err) :
    KirimPesan env r w =
      ({ w with trace := w.trace ++
          [Event.readBody, Event.log ("Gagal membaca body JSON : " ++ err)] },
        Served.response
          { code := 400
            header := [("Content-Type", "application/json")]
            body := Body.json [("status", "failed"), ("message", "JSON body tidak valid")] }) := by
  simp [KirimPesan, hpost, hdec, World.emit, World.log, balasanJSON, StatusBadRequest]

/-- The handler reads the body through `Decode` only. -/
theorem KirimPesan_body (env : Env) (m body1 body2 : String) (w : World)
    (h : json.Decode body1 = json.Decode body2) :
    KirimPesan env ⟨m, body1⟩ w = KirimPesan env ⟨m, body2⟩ w := by
  unfold KirimPesan
  simp only [h]

/-- C8 (as amended): for every POST request whose body does not begin with a JSON value
that decodes into `BodyKirimPesan` (the body is empty, or its first JSON value is
malformed or incomplete, or is neither an object nor `null`, or has a `no` or `pesan`
member that is neither a string nor `null`), whatever the session state: the reply is 400
with JSON status `"failed"`, and the handler only reads the body and logs the decoding
error; no message is submitted.  Data after the first JSON value is not examined: a body
that begins with a JSON object is handled as the same body followed by any text. -/
theorem KirimPesan_decode_error (env : Env) (r : Request) (w : World)
    (hpost : r.Method = MethodPost) :
    (json.refused r.Body = true →
      ∃ err, KirimPesan env r w =
        ({ w with trace := w.trace ++
            [Event.readBody, Event.log ("Gagal membaca body JSON : " ++ err)] },
          Served.response
            { code := 400
              header := [("Content-Type", "application/json")]
              body := Body.json [("status", "failed"),
                ("message", "JSON body tidak valid")] }) ∧
        submissions (KirimPesan env r w).1.trace = submissions w.trace) ∧
    (∀ (members : List (String × json.Member)) (rest : List Char) (extra : String),
      json.readValue r.Body.toList = some (json.Top.object members, rest) →
      KirimPesan env ⟨r.Method, r.Body ++ extra⟩ w = KirimPesan env r w) := by
  refine ⟨?_, ?_⟩
  · intro hbad
    obtain ⟨err, herr⟩ := (Decode_error_iff r.Body).mpr hbad
    have h := KirimPesan_decode_error_reply env r w err hpost herr
    refine ⟨err, h, ?_⟩
    rw [h]
    simp [submissions, List.filter_append, List.filter]
  · intro members rest extra hrv
    exact KirimPesan_body env r.Method (r.Body ++ extra) r.Body w
      (Decode_object_append r.Body extra members rest hrv)

/-! ## The decoder on the concrete bodies -/

theorem Decode_reqHello :
    json.Decode reqHello.Body = Except.ok ⟨"6281234567890", "hello"⟩ := by
  rfl

theorem Decode_reqEmptyNo : json.Decode reqEmptyNo.Body = Except.ok ⟨"", "hi"⟩ := by
  rfl

theorem Decode_reqTrailing :
    json.Decode reqTrailing.Body = Except.ok ⟨"6281234567890", "hello"⟩ := by
  rfl

theorem Decode_reqNumber :
    json.Decode reqNumber.Body = Except.error
      "json: cannot unmarshal number into Go struct field BodyKirimPesan.no of type string" := by
  rfl

/-! ## Witnesses and counterexamples -/

theorem KirimPesan_method_not_allowed_witness :
    reqGet.Method ≠ MethodPost ∧
    (KirimPesan envSent reqGet worldSession).2 =
      Served.response
        { code := 405
          header := [("Content-Type", "application/json")]
          body := Body.json [("status", "failed"), ("message", "Metode GET tidak diizinkan")] } :=
  ⟨by decide,
    congrArg Prod.snd (KirimPesan_method_not_allowed envSent reqGet worldSession (by decide)).1⟩

theorem KirimPesan_empty_field_witness :
    reqEmptyNo.Method = MethodPost ∧
    json.Decode reqEmptyNo.Body = Except.ok ⟨"", "hi"⟩ ∧
    KirimPesan envSent reqEmptyNo worldSession =
      ({ worldSession with trace := [Event.readBody] },
        Served.response
          { code := 400
            header := [("Content-Type", "application/json")]
            body := Body.json [("status", "failed"),
              ("message", "Nilai 'No' atau 'Pesan' tidak boleh kosong")] }) :=
  ⟨rfl, Decode_reqEmptyNo,
    KirimPesan_empty_field envSent reqEmptyNo worldSession ⟨"", "hi"⟩ rfl Decode_reqEmptyNo
      (Or.inl rfl)⟩

theorem KirimPesan_no_session_witness :
    reqHello.Method = MethodPost ∧
    json.Decode reqHello.Body = Except.ok ⟨"6281234567890", "hello"⟩ ∧
    worldNoSession.wac = none ∧
    (KirimPesan envSent reqHello worldNoSession).2 =
      Served.response
        { code := 500
          header := [("Content-Type", "application/json")]
          body := Body.json [("status", "failed"), ("message", "WhatsApp belum terhubung")] } :=
  ⟨rfl, Decode_reqHello, rfl,
    congrArg Prod.snd
      (KirimPesan_no_session envSent reqHello worldNoSession ⟨"6281234567890", "hello"⟩ rfl
        Decode_reqHello (by decide) (by decide) rfl).1⟩

theorem KirimPesan_success_witness :
    reqHello.Method = MethodPost ∧
    json.Decode reqHello.Body = Except.ok ⟨"6281234567890", "hello"⟩ ∧
    worldSession.wac = some ⟨7⟩ ∧
    worldSession.db_save_number ≠ "yes" ∧
    (KirimPesan envSent reqHello worldSession).2 =
      Served.response
        { code := 200
          header := [("Content-Type", "application/json")]
          body := Body.json [("status", "success"),
            ("message", "Pesan berhasil dikirim ke 6281234567890")] } :=
  ⟨rfl, Decode_reqHello, rfl, by decide,
    KirimPesan_success envSent reqHello worldSession ⟨"6281234567890", "hello"⟩ ⟨7⟩ rfl
      Decode_reqHello (by decide) (by decide) rfl rfl (by decide)⟩

theorem KirimPesan_decode_error_witness :
    reqNumber.Method = MethodPost ∧
    json.refused reqNumber.Body = true ∧
    ∃ err, KirimPesan envSent reqNumber worldSession =
      ({ worldSession with trace :=
          [Event.readBody, Event.log ("Gagal membaca body JSON : " ++ err)] },
        Served.response
          { code := 400
            header := [("Content-Type", "application/json")]
            body := Body.json [("status", "failed"), ("message", "JSON body tidak valid")] }) ∧
      submissions (KirimPesan envSent reqNumber worldSession).1.trace = [] :=
  ⟨rfl, by decide, (KirimPesan_decode_error envSent reqNumber worldSession rfl).1 (by decide)⟩

/-- C8 (counterexample to the claim as stated): the body of `reqTrailing` is a JSON object
followed by the text ` this is not JSON`, so it is not valid JSON; the handler decodes the
object, submits the message and replies 200 with status `"success"`. -/
theorem KirimPesan_trailing_data_accepted :
    json.Valid reqTrailing.Body = false ∧
    (KirimPesan envSent reqTrailing worldSession).2 =
      Served.response
        { code := 200
          header := [("Content-Type", "application/json")]
          body := Body.json [("status", "success"),
            ("message", "Pesan berhasil dikirim ke 6281234567890")] } ∧
    submissions (KirimPesan envSent reqTrailing worldSession).1.trace =
      [Event.sendMessage ⟨7⟩ ⟨"6281234567890", "s.whatsapp.net"⟩ "hello"] := by
  decide


theorem reqHello_sendsTo : sendsTo ⟨7⟩ "6281234567890" (envSent, reqHello) :=
  ⟨rfl, by decide, "hello", by decide, Decode_reqHello, rfl⟩

theorem SimpanNomorN_records_once_witness :
    (∀ s, worldStore.collation s s = true) ∧
    (∀ n, (rowsFor worldStore.collation n worldStore.rows).length ≤ 1) ∧
    "6281234567890".length ≤ nomorWidth ∧
    (∃ w1, SimpanNomorN [storeUp, storeUp, storeUp] "6281234567890" worldStore =
        Outcome.returned w1 ∧
      (rowsFor worldStore.collation "6281234567890" w1.rows).length = 1) ∧
    (KirimPesanN [(envSent, reqHello), (envSent, reqHello), (envSent, reqHello)] worldStore).2 =
      [replySent "6281234567890", replySent "6281234567890", replySent "6281234567890"] ∧
    (rowsFor worldStore.collation "6281234567890"
      (KirimPesanN [(envSent, reqHello), (envSent, reqHello), (envSent, reqHello)]
        worldStore).1.rows).length = 1 :=
  have hrefl : ∀ s, worldStore.collation s s = true :=
    fun s => by simp [worldStore, worldRecording, worldSession, binary]
  have huniq : ∀ n, (rowsFor worldStore.collation n worldStore.rows).length ≤ 1 :=
    fun _ => by simp [rowsFor, worldStore, worldRecording, worldSession]
  have hsend : ∀ c ∈ [(envSent, reqHello), (envSent, reqHello), (envSent, reqHello)],
      sendsTo ⟨7⟩ "6281234567890" c := by
    intro c hc
    simp only [List.mem_cons, List.mem_singleton, List.not_mem_nil, or_false, or_self] at hc
    rw [hc]
    exact reqHello_sendsTo
  have h := SimpanNomorN_records_once "6281234567890" worldStore hrefl huniq (by decide)
  have hA := h.1 [storeUp, storeUp, storeUp] (by decide) (by decide)
  have hB := h.2 [(envSent, reqHello), (envSent, reqHello), (envSent, reqHello)] ⟨7⟩
    (by decide) rfl rfl (by decide) hsend
  ⟨hrefl, huniq, by decide,
    hA.elim (fun w1 hw1 => ⟨w1, hw1.1, hw1.2.1⟩), hB.1, hB.2.2.1⟩

/-- C9 (counterexample to the claim as stated): the identifier `62812345678901234` has 17
characters, one more than column `nomor` holds.  On a live store with an empty table,
`SimpanNomor` returns, and the table holds no row for the identifier: in strict mode the
insert is refused and the table stays empty; otherwise the one row stored is the
identifier cut to 16 characters. -/
theorem SimpanNomor_long_identifier_not_recorded :
    nomorPanjang.length = 17 ∧
    storeUp.live ∧
    (∃ w1, SimpanNomorN [storeUp] nomorPanjang worldStore = Outcome.returned w1 ∧
      w1.rows = [] ∧ (rowsFor binary nomorPanjang w1.rows).length = 0) ∧
    (∃ w1, SimpanNomorN [storeUp] nomorPanjang worldStoreLax = Outcome.returned w1 ∧
      w1.rows = [⟨1, "6281234567890123"⟩] ∧
      (rowsFor binary nomorPanjang w1.rows).length = 0) :=
  ⟨by decide, by decide, ⟨_, rfl, by decide, by decide⟩, ⟨_, rfl, by decide, by decide⟩⟩

theorem KoneksiDB_check_and_replace_witness :
    (∀ h, worldStore.db = some h → h.id < worldStore.nextHandle) ∧
    (⟨0⟩ ∈ (KoneksiDB storeDown worldStore).closed ∧
      (KoneksiDB storeDown worldStore).db ≠ some ⟨0⟩ ∧
      ∀ os, (KoneksiDBs os (KoneksiDB storeDown worldStore)).db ≠ some ⟨0⟩) :=
  ⟨by decide,
    (KoneksiDB_check_and_replace storeDown worldStore (by decide)).2.1 ⟨0⟩
      "driver: bad connection" rfl rfl⟩

/-! ## Message Dispatcher: the replies that are not structured -/

/-- Whatever the error text and the code, the reply of `http.Error` is plain text: it has
no `status` member and is not a well-formed JSON reply. -/
theorem httpError_not_wellFormed (error : String) (code : Nat) :
    (httpError error code).member "status" = none ∧ ¬ (httpError error code).wellFormed := by
  simp [httpError, Response.member, Response.wellFormed]

/-- Every JSON reply the handler builds with its code and status paired as in the source
is well formed. -/
theorem balasanJSON_wellFormed (message : String) :
    (balasanJSON StatusOK "success" message).wellFormed ∧
    (balasanJSON StatusBadRequest "failed" message).wellFormed ∧
    (balasanJSON StatusMethodNotAllowed "failed" message).wellFormed ∧
    (balasanJSON StatusInternalServerError "failed" message).wellFormed := by
  simp [balasanJSON, Response.wellFormed, Response.member, StatusOK, StatusBadRequest,
    StatusMethodNotAllowed, StatusInternalServerError, List.find?]

/-- When the submission fails, on any well-formed request, the handler replies through
`http.Error`: code 400, plain text, the error text and a newline. -/
theorem KirimPesan_send_failure (env : Env) (r : Request) (w : World)
    (request : BodyKirimPesan) (client : Client) (err : String)
    (hpost : r.Method = MethodPost) (hdec : json.Decode r.Body = Except.ok request)
    (hno : request.No ≠ "") (hpesan : request.Pesan ≠ "") (hwac : w.wac = some client)
    (hsend : env.SendMessage client ⟨request.No, DefaultUserServer⟩ request.Pesan = some err) :
    (KirimPesan env r w).2 = Served.response (httpError err StatusBadRequest) := by
  simp [KirimPesan, hpost, hdec, hno, hpesan, hwac, hsend, World.emit, World.log]

/-- The handler's answer is always one of three: a well-formed JSON reply; the plain-text
reply of `http.Error` after a failed submission; or no reply at all, which happens only
with recording enabled. -/
theorem KirimPesan_replies (env : Env) (r : Request) (w : World) :
    (∃ resp, (KirimPesan env r w).2 = Served.response resp ∧ resp.wellFormed) ∨
    (∃ err, (KirimPesan env r w).2 = Served.response (httpError err StatusBadRequest)) ∨
    (∃ reason, (KirimPesan env r w).2 = Served.aborted reason ∧ w.db_save_number = "yes") := by
  unfold KirimPesan
  split
  · exact Or.inl ⟨_, rfl, (balasanJSON_wellFormed _).2.2.1⟩
  · dsimp only
    split
    · exact Or.inl ⟨_, rfl, (balasanJSON_wellFormed _).2.1⟩
    · split
      · exact Or.inl ⟨_, rfl, (balasanJSON_wellFormed _).2.1⟩
      · split
        · exact Or.inl ⟨_, rfl, (balasanJSON_wellFormed _).2.2.2⟩
        · split
          · exact Or.inr (Or.inl ⟨_, rfl⟩)
          · split
            · rename_i hrec
              right; right
              refine ⟨_, rfl, ?_⟩
              by_contra hne
              simp [World.emit, hne] at hrec
            · exact Or.inl ⟨_, rfl, (balasanJSON_wellFormed _).1⟩

/-- C1 (the code at the failing input): the request `{"no": "6281234567890", "pesan":
"hello"}` with a session whose `SendMessage` fails with "the store doesn't contain a
device JID".  The reply has code 400 and content type `text/plain`; its body is the error
text and a newline, not a JSON object: it has no `status` and no `message` member. -/
theorem KirimPesan_send_failure_plain_text :
    (KirimPesan envNotSent reqHello worldSession).2 =
      Served.response
        { code := 400
          header := [("Content-Type", "text/plain; charset=utf-8"),
                     ("X-Content-Type-Options", "nosniff")]
          body := Body.text "the store doesn't contain a device JID\n" } ∧
    (∀ resp, (KirimPesan envNotSent reqHello worldSession).2 = Served.response resp →
      resp.member "status" = none ∧ resp.member "message" = none ∧ ¬ resp.wellFormed) := by
  have h : (KirimPesan envNotSent reqHello worldSession).2 =
      Served.response
        { code := 400
          header := [("Content-Type", "text/plain; charset=utf-8"),
                     ("X-Content-Type-Options", "nosniff")]
          body := Body.text "the store doesn't contain a device JID\n" } := by
    decide
  refine ⟨h, ?_⟩
  intro resp hresp
  rw [h] at hresp
  cases hresp
  decide

/-! ## Recording and the reply -/

/-- When the shared handle is present after `KoneksiDB`, `SimpanNomor` returns. -/
theorem SimpanNomor_returns (o : DBOutcomes) (nomor : String) (w : World) (h : DBHandle)
    (hdb : (KoneksiDB o w).db = some h) :
    ∃ w1, SimpanNomor o nomor w = Outcome.returned w1 := by
  unfold SimpanNomor
  simp only [hdb]
  split
  · exact ⟨_, rfl⟩
  · exact ⟨_, rfl⟩
  · exact ⟨_, rfl⟩

/-- When the shared handle is absent after `KoneksiDB`, `SimpanNomor` panics. -/
theorem SimpanNomor_panics (o : DBOutcomes) (nomor : String) (w : World)
    (hdb : (KoneksiDB o w).db = none) :
    SimpanNomor o nomor w = Outcome.panicked (KoneksiDB o w)
      "runtime error: invalid memory address or nil pointer dereference" := by
  unfold SimpanNomor
  simp only [hdb]

/-- The handle `KoneksiDB` leaves in `db` does not depend on the trace. -/
theorem KoneksiDB_db_emit (o : DBOutcomes) (w : World) (e : Event) :
    (KoneksiDB o (w.emit e)).db = (KoneksiDB o w).db := by
  unfold KoneksiDB
  cases hdb : w.db with
  | none => simp [World.emit, hdb, buatBaru_db]
  | some g =>
    cases hp : o.pingOld with
    | none => simp [World.emit, hdb]
    | some err => simp [World.emit, hdb, buatBaru_db, World.dbClose]

/-- With recording enabled, on a well-formed request with a session and a successful
submission, the reply is the 200 `"success"` reply of the handler without recording
whenever `KoneksiDB` leaves a handle in `db`: a failed lookup or a failed insert is only
logged. -/
theorem KirimPesan_recording_reply (env : Env) (r : Request) (w : World)
    (request : BodyKirimPesan) (client : Client) (h : DBHandle)
    (hpost : r.Method = MethodPost) (hdec : json.Decode r.Body = Except.ok request)
    (hno : request.No ≠ "") (hpesan : request.Pesan ≠ "") (hwac : w.wac = some client)
    (hsend : env.SendMessage client ⟨request.No, DefaultUserServer⟩ request.Pesan = none)
    (hdb : (KoneksiDB env.store w).db = some h) :
    (KirimPesan env r w).2 =
      Served.response
        (balasanJSON StatusOK "success" ("Pesan berhasil dikirim ke " ++ request.No)) := by
  by_cases hrec : w.db_save_number = "yes"
  · have hdb2 : (KoneksiDB env.store ((w.emit Event.readBody).emit
        (Event.sendMessage client ⟨request.No, DefaultUserServer⟩ request.Pesan))).db =
        some h := by
      rw [KoneksiDB_db_emit, KoneksiDB_db_emit, hdb]
    obtain ⟨w1, hw1⟩ := SimpanNomor_returns env.store request.No _ h hdb2
    have hrec2 : ((w.emit Event.readBody).emit
        (Event.sendMessage client ⟨request.No, DefaultUserServer⟩ request.Pesan)).db_save_number
          = "yes" := by
      simpa [World.emit] using hrec
    have hwac2 : (w.emit Event.readBody).wac = some client := by
      simpa [World.emit] using hwac
    simp only [KirimPesan, hpost, hdec, hno, hpesan, hwac2, hsend, hrec2, hw1]
    simp
  · simp [KirimPesan, hpost, hdec, hno, hpesan, hwac, hsend, hrec, World.emit, World.log]

/-- With recording enabled, on a well-formed request with a session and a successful
submission, no reply is written when `KoneksiDB` leaves `db` nil. -/
theorem KirimPesan_recording_abort (env : Env) (r : Request) (w : World)
    (request : BodyKirimPesan) (client : Client)
    (hpost : r.Method = MethodPost) (hdec : json.Decode r.Body = Except.ok request)
    (hno : request.No ≠ "") (hpesan : request.Pesan ≠ "") (hwac : w.wac = some client)
    (hsend : env.SendMessage client ⟨request.No, DefaultUserServer⟩ request.Pesan = none)
    (hrec : w.db_save_number = "yes") (hdb : (KoneksiDB env.store w).db = none) :
    (KirimPesan env r w).2 =
      Served.aborted "runtime error: invalid memory address or nil pointer dereference" := by
  have hdb2 : (KoneksiDB env.store ((w.emit Event.readBody).emit
      (Event.sendMessage client ⟨request.No, DefaultUserServer⟩ request.Pesan))).db = none := by
    rw [KoneksiDB_db_emit, KoneksiDB_db_emit, hdb]
  have hp := SimpanNomor_panics env.store request.No _ hdb2
  have hrec2 : ((w.emit Event.readBody).emit
      (Event.sendMessage client ⟨request.No, DefaultUserServer⟩ request.Pesan)).db_save_number
        = "yes" := by
    simpa [World.emit] using hrec
  have hwac2 : (w.emit Event.readBody).wac = some client := by
    simpa [World.emit] using hwac
  simp only [KirimPesan, hpost, hdec, hno, hpesan, hwac2, hsend, hrec2, hp]
  simp

/-- C2 (the code at the failing input): the request `{"no": "6281234567890", "pesan":
"hello"}`, a session, a successful submission, the handle `db` absent and the store
unreachable.  With recording disabled the reply is 200 `"success"`.  With recording
enabled `KoneksiDB` leaves `db` nil, `db.QueryRow` panics, and no reply is written, though
the message was submitted.  The same happens when `db` holds a handle whose ping fails. -/
theorem KirimPesan_recording_store_down :
    (KirimPesan envSentStoreDown reqHello { worldRecording with db_save_number := "no" }).2 =
      Served.response
        { code := 200
          header := [("Content-Type", "application/json")]
          body := Body.json [("status", "success"),
            ("message", "Pesan berhasil dikirim ke 6281234567890")] } ∧
    (KirimPesan envSentStoreDown reqHello worldRecording).2 =
      Served.aborted "runtime error: invalid memory address or nil pointer dereference" ∧
    (KirimPesan envSentStoreDown reqHello worldRecording).1.db = none ∧
    submissions (KirimPesan envSentStoreDown reqHello worldRecording).1.trace =
      [Event.sendMessage ⟨7⟩ ⟨"6281234567890", "s.whatsapp.net"⟩ "hello"] ∧
    (KirimPesan envSentStoreDown reqHello worldStore).2 =
      Served.aborted "runtime error: invalid memory address or nil pointer dereference" := by
  decide

/-! ## Session Manager -/

/-- On a first start in which the pairing channel and the connect succeed, `KoneksiWA`
returns the client and no error whatever the channel delivers. -/
theorem KoneksiWA_pairing_returns_client (o : WAOutcomes) (w : World)
    (items : List QRChannelItem)
    (h1 : o.sqlstoreNew = none) (h2 : o.getFirstDevice = none) (h3 : o.storeID = none)
    (h4 : o.getQRChannel = Except.ok items) (h5 : o.connect = none) :
    (KoneksiWA o w).2 = Except.ok o.client := by
  simp [KoneksiWA, h1, h2, h3, h4, h5]

/-- C3 (the code at the failing input): a first start, the pairing channel and the
connect succeed, and the channel delivers two codes and then `timeout`.  `KoneksiWA`
returns the client and a nil error; `main` publishes it in `wac`, logs
"Terhubung ke WhatsApp" and goes on to serve. -/
theorem KoneksiWA_pairing_timeout :
    pairingTimeout.storeID = none ∧
    terminalEvent [⟨"code", "2@AbCdEf"⟩, ⟨"code", "2@GhIjKl"⟩, ⟨"timeout", ""⟩] = some "timeout" ∧
    (KoneksiWA pairingTimeout worldNoSession).2 = Except.ok ⟨7⟩ ∧
    (main.hubungkanWA pairingTimeout worldNoSession).2 = true ∧
    (main.hubungkanWA pairingTimeout worldNoSession).1.wac = some ⟨7⟩ ∧
    (main.hubungkanWA pairingTimeout worldNoSession).1.trace =
      [Event.getQRChannel, Event.connect,
        Event.log "Silahkan scan QR code berikut agar terhubung ke Whatsapp",
        Event.renderQR "2@AbCdEf",
        Event.log "Silahkan scan QR code berikut agar terhubung ke Whatsapp",
        Event.renderQR "2@GhIjKl",
        Event.log "Event Login : timeout",
        Event.log "Terhubung ke WhatsApp"] := by
  refine ⟨rfl, by decide, rfl, by decide, by decide, by decide⟩

end Kirimkan
